import Mathlib

/-!
Verification of the MLOD P3D binary decode/encode engine (mlod-p3d.cpp).

The embedding models byte buffers as `List Nat` (each element a byte value,
`< 256` for well-formed buffers).  The C++ `binary_reader` holds an immutable
buffer and a cursor offset; we model a read as a function of the buffer and
the current offset that either fails (insufficient bytes, cursor untouched)
or returns the bytes read together with the advanced offset.  Each `parse`
member function returns `Except String (value × newOffset)`, mirroring the
C++ `std::optional<mlod_error>` plus out-parameter convention; the `write`
member functions return the emitted byte list, mirroring appends to
`binary_writer`.

Multi-byte scalar fields (`uint32_t` and IEEE754 `float`) are read by a
single `sizeof(T)`-byte cursor read and kept as their little-endian byte
composition (a `Nat`); the code never computes with float values, so a float
field is represented by its 32-bit pattern.

The two unbounded C++ loops (`arma_string::parse`'s scan to NUL and the
LOD tag loop) are modelled with an explicit iteration bound of
`buf.length + 1 - off`: every iteration of either loop consumes at least one
byte, so the bound is never reached except when `off > buf.length`, in which
case the bound-exhausted branch returns exactly the error the first cursor
read of the iteration would have produced.  The bound is therefore
behaviourally invisible: the fuelled function agrees with the C++ loop on
every input.
-/

namespace MlodP3d

/-- A byte buffer: the C++ `std::uint8_t*`/`std::vector<std::uint8_t>` data. -/
abbrev Buf := List Nat

/-- Well-formed buffer: every element is a genuine byte value. -/
def WFBuf (buf : Buf) : Prop := ∀ b ∈ buf, b < 256

instance : DecidablePred WFBuf := fun buf =>
  List.decidableBAll (fun b => b < 256) buf

/-- The bytes of `buf` from offset `a` (inclusive) to offset `b` (exclusive). -/
def extract (buf : Buf) (a b : Nat) : Buf := (buf.drop a).take (b - a)

/-- Little-endian composition of a byte list into a number (low byte first). -/
def leVal (bs : List Nat) : Nat := bs.foldr (fun b acc => b + 256 * acc) 0

/-- Little-endian decomposition of a number into `n` bytes (low byte first). -/
def leBytes : Nat → Nat → List Nat
  | 0, _ => []
  | Nat.succ n, v => v % 256 :: leBytes n (v / 256)

/-- binary_writer::write of a `uint32_t` (or of a `float`, via its 32-bit
pattern): four little-endian bytes. -/
def writeU32 (v : Nat) : Buf := leBytes 4 v

/-- binary_reader::read for a value of size `n`: fails when fewer than `n`
bytes remain past `off` (the cursor is left unchanged — no new offset is
produced); otherwise yields the `n` bytes at `[off, off+n)` and the offset
advanced by exactly `n`. -/
def readBytes (buf : Buf) (off n : Nat) : Option (List Nat × Nat) :=
  if off + n > buf.length then none
  else some (extract buf off (off + n), off + n)

/-- binary_reader::read for a 1-byte value (`char`, `bool`, `std::uint8_t`). -/
def readByte (buf : Buf) (off : Nat) : Option (Nat × Nat) :=
  if off + 1 > buf.length then none
  else some (buf.getD off 0, off + 1)

/-- An `if (!reader.read(x)) return mlod_error(msg)` step for a 4-byte
`uint32_t` or `float` field, the value kept as the little-endian composition
of its four bytes. -/
def readU32 (buf : Buf) (off : Nat) (msg : String) : Except String (Nat × Nat) :=
  match readBytes buf off 4 with
  | none => .error msg
  | some (bs, o) => .ok (leVal bs, o)

/-- An `if (!reader.read(x)) return mlod_error(msg)` step for a 4-byte
`mlod_signature` (`std::array<char, 4>`), kept as its raw byte list. -/
def readSig (buf : Buf) (off : Nat) (msg : String) : Except String (List Nat × Nat) :=
  match readBytes buf off 4 with
  | none => .error msg
  | some (bs, o) => .ok (bs, o)

/-- An `if (!reader.read(x)) return mlod_error(msg)` step for a 1-byte field. -/
def readChar (buf : Buf) (off : Nat) (msg : String) : Except String (Nat × Nat) :=
  match readByte buf off with
  | none => .error msg
  | some (b, o) => .ok (b, o)

/-- struct vector3 \x7b float x, y, z; \x7d — floats kept as 32-bit patterns. -/
structure vector3 where
  x : Nat
  y : Nat
  z : Nat
deriving Repr, DecidableEq

/-- vector3::parse: reads x, y, z in order, each failure naming its field. -/
def vector3.parse (buf : Buf) (off : Nat) : Except String (vector3 × Nat) :=
  match readU32 buf off "failed to read vector3.x" with
  | .error e => .error e
  | .ok (x, o1) =>
  match readU32 buf o1 "failed to read vector3.y" with
  | .error e => .error e
  | .ok (y, o2) =>
  match readU32 buf o2 "failed to read vector3.z" with
  | .error e => .error e
  | .ok (z, o3) => .ok (⟨x, y, z⟩, o3)

/-- vector3::write: emits x, y, z in order. -/
def vector3.write (v : vector3) : Buf :=
  writeU32 v.x ++ writeU32 v.y ++ writeU32 v.z

/-- struct arma_string \x7b std::string string; \x7d. -/
structure arma_string where
  string : List Nat
deriving Repr, DecidableEq

/-- The do/while loop body of arma_string::parse: read one char; stop
(consuming it) on NUL, otherwise append and continue.  The iteration bound is
only reached when `off > buf.length`, where the loop's own char read would
fail with the same error (see the module comment). -/
def arma_string.parseLoop (buf : Buf) : Nat → Nat → Except String (List Nat × Nat)
  | _, 0 => .error "failed to read arma_string[n]"
  | off, Nat.succ fuel =>
    match readChar buf off "failed to read arma_string[n]" with
    | .error e => .error e
    | .ok (ch, o1) =>
      if ch = 0 then .ok ([], o1)
      else
        match arma_string.parseLoop buf o1 fuel with
        | .error e => .error e
        | .ok (s, o2) => .ok (ch :: s, o2)

/-- arma_string::parse: accumulate bytes up to the first NUL (the NUL is
consumed but excluded from the value); out of data before a NUL is an error. -/
def arma_string.parse (buf : Buf) (off : Nat) : Except String (arma_string × Nat) :=
  match arma_string.parseLoop buf off (buf.length + 1 - off) with
  | .error e => .error e
  | .ok (s, o) => .ok (⟨s⟩, o)

/-- arma_string::write: the string's bytes followed by exactly one NUL. -/
def arma_string.write (s : arma_string) : Buf := s.string ++ [0]

/-- struct vert_descriptor: two uint32 indices and two float uv coordinates. -/
structure vert_descriptor where
  point_index : Nat
  normal_index : Nat
  u : Nat
  v : Nat
deriving Repr, DecidableEq

/-- Overlay of 16 raw bytes onto the packed vert_descriptor struct
(pack(1), little-endian): 4 bytes per field in declaration order. -/
def vert_descriptor.ofBytes (bs : List Nat) : vert_descriptor :=
  ⟨leVal (extract bs 0 4), leVal (extract bs 4 8),
   leVal (extract bs 8 12), leVal (extract bs 12 16)⟩

/-- vert_descriptor::parse (defined in the source but never called — faces
read descriptors with a raw 16-byte `reader.read(desc)` instead). -/
def vert_descriptor.parse (buf : Buf) (off : Nat) : Except String (vert_descriptor × Nat) :=
  match readU32 buf off "failed to read vert_descriptor.point_index" with
  | .error e => .error e
  | .ok (pi, o1) =>
  match readU32 buf o1 "failed to read vert_descriptor.normal_index" with
  | .error e => .error e
  | .ok (ni, o2) =>
  match readU32 buf o2 "failed to read vert_descriptor.u" with
  | .error e => .error e
  | .ok (u, o3) =>
  match readU32 buf o3 "failed to read vert_descriptor.v" with
  | .error e => .error e
  | .ok (v, o4) => .ok (⟨pi, ni, u, v⟩, o4)

/-- vert_descriptor::write / `writer.write(desc)`: the 16 bytes of the packed
struct, fields in declaration order. -/
def vert_descriptor.write (d : vert_descriptor) : Buf :=
  writeU32 d.point_index ++ writeU32 d.normal_index ++ writeU32 d.u ++ writeU32 d.v

/-- Parse `n` successive records with a single element parser, as the
`for (auto& x : out.xs)`-over-a-resized-vector loops do. -/
def parseCount {α : Type} (p : Buf → Nat → Except String (α × Nat))
    (buf : Buf) (off : Nat) : Nat → Except String (List α × Nat)
  | 0 => .ok ([], off)
  | Nat.succ n =>
    match p buf off with
    | .error e => .error e
    | .ok (a, o1) =>
      match parseCount p buf o1 n with
      | .error e => .error e
      | .ok (as, o2) => .ok (a :: as, o2)

/-- struct mlod_face. -/
structure mlod_face where
  face_type : Nat
  vertices : List vert_descriptor
  face_flags : Nat
  texture_name : arma_string
  material_name : arma_string
deriving Repr, DecidableEq

/-- The `reader.read(desc)` step of the face vertex loop: one raw 16-byte
read overlaid onto the packed descriptor struct. -/
def mlod_face.readVertex (buf : Buf) (off : Nat) : Except String (vert_descriptor × Nat) :=
  match readBytes buf off 16 with
  | none => .error "failed to read mlod_face.vertices[n]"
  | some (bs, o) => .ok (vert_descriptor.ofBytes bs, o)

/-- mlod_face::parse: face_type, then always exactly 4 vertex descriptors
("always 4 nomatter the face_type" — the vector is resized to 4 before the
loop), then face_flags, texture_name, material_name. -/
def mlod_face.parse (buf : Buf) (off : Nat) : Except String (mlod_face × Nat) :=
  match readU32 buf off "failed to read mlod_face.face_type" with
  | .error e => .error e
  | .ok (ft, o1) =>
  match parseCount mlod_face.readVertex buf o1 4 with
  | .error e => .error e
  | .ok (verts, o2) =>
  match readU32 buf o2 "failed to read mlod_face.face_flags" with
  | .error e => .error e
  | .ok (ff, o3) =>
  match arma_string.parse buf o3 with
  | .error e => .error e
  | .ok (tex, o4) =>
  match arma_string.parse buf o4 with
  | .error e => .error e
  | .ok (mat, o5) => .ok (⟨ft, verts, ff, tex, mat⟩, o5)

/-- mlod_face::write. -/
def mlod_face.write (f : mlod_face) : Buf :=
  writeU32 f.face_type ++ (f.vertices.map vert_descriptor.write).flatten
    ++ writeU32 f.face_flags ++ arma_string.write f.texture_name
    ++ arma_string.write f.material_name

/-- struct mlod_point. -/
structure mlod_point where
  pos : vector3
  flags : Nat
deriving Repr, DecidableEq

/-- mlod_point::parse: position vector then flags. -/
def mlod_point.parse (buf : Buf) (off : Nat) : Except String (mlod_point × Nat) :=
  match vector3.parse buf off with
  | .error e => .error e
  | .ok (pos, o1) =>
  match readU32 buf o1 "failed to read mlod_point.flags" with
  | .error e => .error e
  | .ok (fl, o2) => .ok (⟨pos, fl⟩, o2)

/-- mlod_point::write. -/
def mlod_point.write (p : mlod_point) : Buf :=
  vector3.write p.pos ++ writeU32 p.flags

/-- struct mlod_tag: the `bool active` is read/written as its raw byte. -/
structure mlod_tag where
  active : Nat
  tag_name : arma_string
  data_length : Nat
  data : List Nat
deriving Repr, DecidableEq

/-- The payload loop of mlod_tag::parse: `data_length` single-byte reads over
the resized vector, failing on the first missing byte. -/
def mlod_tag.readData (buf : Buf) (off : Nat) : Nat → Except String (List Nat × Nat)
  | 0 => .ok ([], off)
  | Nat.succ n =>
    match readChar buf off "failed to read mlod_tag.data[m]" with
    | .error e => .error e
    | .ok (b, o1) =>
      match mlod_tag.readData buf o1 n with
      | .error e => .error e
      | .ok (bs, o2) => .ok (b :: bs, o2)

/-- mlod_tag::parse: active byte, name string, u32 payload length, then that
many raw payload bytes. -/
def mlod_tag.parse (buf : Buf) (off : Nat) : Except String (mlod_tag × Nat) :=
  match readChar buf off "failed to read mlod_tag.active" with
  | .error e => .error e
  | .ok (act, o1) =>
  match arma_string.parse buf o1 with
  | .error e => .error e
  | .ok (name, o2) =>
  match readU32 buf o2 "failed to read mlod_tag.data_length" with
  | .error e => .error e
  | .ok (len, o3) =>
  match mlod_tag.readData buf o3 len with
  | .error e => .error e
  | .ok (data, o4) => .ok (⟨act, name, len, data⟩, o4)

/-- mlod_tag::write: active byte, name, declared length, raw payload bytes. -/
def mlod_tag.write (t : mlod_tag) : Buf :=
  [t.active] ++ arma_string.write t.tag_name ++ writeU32 t.data_length ++ t.data

/-- Tag name "#Property#" as its ASCII bytes. -/
def propertyTagName : List Nat := [35, 80, 114, 111, 112, 101, 114, 116, 121, 35]

/-- Tag name "#Mass#" as its ASCII bytes. -/
def massTagName : List Nat := [35, 77, 97, 115, 115, 35]

/-- Tag name "#EndOfFile#" as its ASCII bytes. -/
def endOfFileTagName : List Nat := [35, 69, 110, 100, 79, 102, 70, 105, 108, 101, 35]

/-- struct property_tag: two decoded 64-char buffers. -/
structure property_tag where
  key : List Nat
  value : List Nat
deriving Repr, DecidableEq

/-- A `for (auto& ch : buffer)` loop of unchecked `reader.read(ch)` calls over
an `n`-char `resize`d string: a failed read leaves the char at its
value-initialized `0` and the cursor where it was. -/
def readCharsPadded (buf : Buf) (off : Nat) : Nat → List Nat × Nat
  | 0 => ([], off)
  | Nat.succ n =>
    match readByte buf off with
    | none =>
      let r := readCharsPadded buf off n
      (0 :: r.1, r.2)
    | some (c, o1) =>
      let r := readCharsPadded buf o1 n
      (c :: r.1, r.2)

/-- property_tag::property_tag(const mlod_tag&): a fresh reader over the raw
payload, then 64 unchecked char reads into `key` followed by 64 into `value`.
Note there is no payload-length check: this constructor runs for every
"#Property#" tag, zero-filling whatever the payload does not cover. -/
def property_tag.fromTag (t : mlod_tag) : property_tag :=
  let k := readCharsPadded t.data 0 64
  let v := readCharsPadded t.data k.2 64
  ⟨k.1, v.1⟩

/-- struct mass_tag: one decoded float (32-bit pattern) per point. -/
structure mass_tag where
  mass : List Nat
deriving Repr, DecidableEq

/-- A `for (auto& m : mass)` loop of unchecked 4-byte `reader.read(m)` calls
over an `n`-float `resize`d vector: a failed read leaves the float at its
value-initialized `0.0f` (pattern 0) and the cursor where it was. -/
def readFloatsPadded (buf : Buf) (off : Nat) : Nat → List Nat × Nat
  | 0 => ([], off)
  | Nat.succ n =>
    match readBytes buf off 4 with
    | none =>
      let r := readFloatsPadded buf off n
      (0 :: r.1, r.2)
    | some (bs, o1) =>
      let r := readFloatsPadded buf o1 n
      (leVal bs :: r.1, r.2)

/-- mass_tag::mass_tag(const mlod_tag&, uint32_t): a fresh reader over the
raw payload, then `num_points` unchecked float reads.  As with property_tag
there is no payload-length check: this constructor runs for every "#Mass#"
tag, zero-filling whatever the payload does not cover. -/
def mass_tag.fromTag (t : mlod_tag) (num_points : Nat) : mass_tag :=
  ⟨(readFloatsPadded t.data 0 num_points).1⟩

/-- struct mlod_lod, including the derived projections (`property_tags`,
`mass`) the tag loop fills in alongside the retained raw tags. -/
structure mlod_lod where
  signature : List Nat
  minor_version : Nat
  major_version : Nat
  num_points : Nat
  num_face_normals : Nat
  num_faces : Nat
  flags : Nat
  points : List mlod_point
  normals : List vector3
  faces : List mlod_face
  tag_sig : List Nat
  tags : List mlod_tag
  resolution : Nat
  property_tags : List property_tag
  mass : mass_tag
deriving Repr, DecidableEq

/-- The `if(tag.tag_name.string == "#Property#")` statement of the tag loop:
append a decoded property projection, unconditionally on payload size. -/
def mlod_lod.tagDispatchProps (props : List property_tag) (tag : mlod_tag) :
    List property_tag :=
  if tag.tag_name.string = propertyTagName then props ++ [property_tag.fromTag tag]
  else props

/-- The `else if (tag.tag_name.string == "#Mass#")` statement of the tag
loop: overwrite the mass projection, unconditionally on payload size. -/
def mlod_lod.tagDispatchMass (m : mass_tag) (np : Nat) (tag : mlod_tag) : mass_tag :=
  if tag.tag_name.string = massTagName then mass_tag.fromTag tag np
  else m

/-- The open-ended do/while tag loop of mlod_lod::parse, carrying the
accumulated `tags`, `property_tags` and `mass` state: parse one tag, push it,
dispatch on its name ("#Property#" appends a projection, "#Mass#" overwrites
the mass projection), and stop after a "#EndOfFile#" tag.  The iteration
bound is only reached when `off > buf.length`, where `mlod_tag::parse`'s
first read (`active`) would fail with the same error (module comment). -/
def mlod_lod.parseTagLoop (buf : Buf) (np : Nat) :
    List mlod_tag → List property_tag → mass_tag → Nat → Nat →
    Except String ((List mlod_tag × List property_tag × mass_tag) × Nat)
  | _, _, _, _, 0 => .error "failed to read mlod_tag.active"
  | tags, props, m, off, Nat.succ fuel =>
    match mlod_tag.parse buf off with
    | .error e => .error e
    | .ok (tag, o1) =>
      if tag.tag_name.string = endOfFileTagName then
        .ok ((tags ++ [tag], mlod_lod.tagDispatchProps props tag,
              mlod_lod.tagDispatchMass m np tag), o1)
      else
        mlod_lod.parseTagLoop buf np (tags ++ [tag])
          (mlod_lod.tagDispatchProps props tag)
          (mlod_lod.tagDispatchMass m np tag) o1 fuel

/-- mlod_lod::parse: seven scalar header fields, the three counted record
arrays, the tag signature, the self-terminating tag loop, then resolution. -/
def mlod_lod.parse (buf : Buf) (off : Nat) : Except String (mlod_lod × Nat) :=
  match readSig buf off "failed to read mlod_lod.signature" with
  | .error e => .error e
  | .ok (sig, o1) =>
  match readU32 buf o1 "failed to read mlod_lod.minor_version" with
  | .error e => .error e
  | .ok (minv, o2) =>
  match readU32 buf o2 "failed to read mlod_lod.major_version" with
  | .error e => .error e
  | .ok (majv, o3) =>
  match readU32 buf o3 "failed to read mlod_lod.num_points" with
  | .error e => .error e
  | .ok (np, o4) =>
  match readU32 buf o4 "failed to read mlod_lod.num_face_normals" with
  | .error e => .error e
  | .ok (nfn, o5) =>
  match readU32 buf o5 "failed to read mlod_lod.num_faces" with
  | .error e => .error e
  | .ok (nf, o6) =>
  match readU32 buf o6 "failed to read mlod_lod.flags" with
  | .error e => .error e
  | .ok (fl, o7) =>
  match parseCount mlod_point.parse buf o7 np with
  | .error e => .error e
  | .ok (points, o8) =>
  match parseCount vector3.parse buf o8 nfn with
  | .error e => .error e
  | .ok (normals, o9) =>
  match parseCount mlod_face.parse buf o9 nf with
  | .error e => .error e
  | .ok (faces, o10) =>
  match readSig buf o10 "failed to read mlod_lod.tag_sig" with
  | .error e => .error e
  | .ok (tsig, o11) =>
  match mlod_lod.parseTagLoop buf np [] [] ⟨[]⟩ o11 (buf.length + 1 - o11) with
  | .error e => .error e
  | .ok ((tags, props, mass), o12) =>
  match readU32 buf o12 "failed to read mlod_lod.resolution" with
  | .error e => .error e
  | .ok (res, o13) =>
    .ok (⟨sig, minv, majv, np, nfn, nf, fl, points, normals, faces,
          tsig, tags, res, props, mass⟩, o13)

/-- mlod_lod::write: the same fields in the same order, tags re-emitted from
the retained raw tags (the projections are never written). -/
def mlod_lod.write (l : mlod_lod) : Buf :=
  l.signature ++ writeU32 l.minor_version ++ writeU32 l.major_version
    ++ writeU32 l.num_points ++ writeU32 l.num_face_normals
    ++ writeU32 l.num_faces ++ writeU32 l.flags
    ++ (l.points.map mlod_point.write).flatten
    ++ (l.normals.map vector3.write).flatten
    ++ (l.faces.map mlod_face.write).flatten
    ++ l.tag_sig
    ++ (l.tags.map mlod_tag.write).flatten
    ++ writeU32 l.resolution

/-- struct p3d_header. -/
structure p3d_header where
  signature : List Nat
  version : Nat
  lod_count : Nat
deriving Repr, DecidableEq

/-- p3d_header::parse. -/
def p3d_header.parse (buf : Buf) (off : Nat) : Except String (p3d_header × Nat) :=
  match readSig buf off "failed to read p3d_header.signature" with
  | .error e => .error e
  | .ok (sig, o1) =>
  match readU32 buf o1 "failed to read p3d_header.version" with
  | .error e => .error e
  | .ok (ver, o2) =>
  match readU32 buf o2 "failed to read p3d_header.lod_count" with
  | .error e => .error e
  | .ok (lc, o3) => .ok (⟨sig, ver, lc⟩, o3)

/-- p3d_header::write. -/
def p3d_header.write (h : p3d_header) : Buf :=
  h.signature ++ writeU32 h.version ++ writeU32 h.lod_count

/-- struct mlod_p3d: the whole document. -/
structure mlod_p3d where
  header : p3d_header
  lods : List mlod_lod
deriving Repr, DecidableEq

/-- mlod_p3d::parse: the header, then exactly `header.lod_count` LODs. -/
def mlod_p3d.parse (buf : Buf) (off : Nat) : Except String (mlod_p3d × Nat) :=
  match p3d_header.parse buf off with
  | .error e => .error e
  | .ok (header, o1) =>
  match parseCount mlod_lod.parse buf o1 header.lod_count with
  | .error e => .error e
  | .ok (lods, o2) => .ok (⟨header, lods⟩, o2)

/-- mlod_p3d::write: the header, then each LOD in stored order. -/
def mlod_p3d.write (d : mlod_p3d) : Buf :=
  p3d_header.write d.header ++ (d.lods.map mlod_lod.write).flatten

/-! ## Basic facts about buffers, `extract`, and the little-endian codecs -/

/-- Decidable equality on `Except`, for evaluating concrete parses. -/
instance {e a : Type} [DecidableEq e] [DecidableEq a] : DecidableEq (Except e a)
  | .error x, .error y =>
    if h : x = y then .isTrue (by rw [h]) else .isFalse (fun c => by cases c; exact h rfl)
  | .error _, .ok _ => .isFalse (fun c => by cases c)
  | .ok _, .error _ => .isFalse (fun c => by cases c)
  | .ok x, .ok y =>
    if h : x = y then .isTrue (by rw [h]) else .isFalse (fun c => by cases c; exact h rfl)

theorem extract_length {buf : Buf} {a b : Nat} (hab : a ≤ b) (h : b ≤ buf.length) :
    (extract buf a b).length = b - a := by
  unfold extract
  rw [List.length_take, List.length_drop]
  omega

theorem extract_same (buf : Buf) (a : Nat) : extract buf a a = [] := by
  unfold extract
  simp

theorem extract_zero (buf : Buf) (b : Nat) : extract buf 0 b = buf.take b := by
  unfold extract
  simp

theorem extract_split {a m b : Nat} (buf : Buf) (h1 : a ≤ m) (h2 : m ≤ b) :
    extract buf a b = extract buf a m ++ extract buf m b := by
  unfold extract
  have hba : b - a = (m - a) + (b - m) := by omega
  rw [hba, List.take_add, List.drop_drop]
  have ham : a + (m - a) = m := by omega
  rw [ham]

theorem take_eq_append_extract {a b : Nat} (buf : Buf) (h : a ≤ b) :
    buf.take b = buf.take a ++ extract buf a b := by
  unfold extract
  have hb : b = a + (b - a) := by omega
  conv_lhs => rw [hb]
  exact List.take_add ..

theorem extract_mem {buf : Buf} {x a b : Nat} (h : x ∈ extract buf a b) : x ∈ buf :=
  List.mem_of_mem_drop (List.mem_of_mem_take h)

theorem wf_extract {buf : Buf} (W : WFBuf buf) (a b : Nat) :
    ∀ x ∈ extract buf a b, x < 256 :=
  fun x hx => W x (extract_mem hx)

/-- Replacing the bytes of `buf` at and beyond `o` changes no `extract` that
ends at or before `o`. -/
theorem extract_take_append {buf : Buf} (ext : Buf) {a b o : Nat}
    (hb : b ≤ o) (ho : o ≤ buf.length) :
    extract (buf.take o ++ ext) a b = extract buf a b := by
  apply List.ext_getElem?
  intro i
  unfold extract
  rw [List.getElem?_take, List.getElem?_take]
  split
  · next hi =>
    rw [List.getElem?_drop, List.getElem?_drop, List.getElem?_append]
    have hlen : (buf.take o).length = o := List.length_take_of_le ho
    rw [hlen, if_pos (by omega), List.getElem?_take, if_pos (by omega)]
  · rfl

theorem leVal_cons (b : Nat) (t : List Nat) : leVal (b :: t) = b + 256 * leVal t := by
  simp [leVal]

theorem leBytes_leVal {bs : List Nat} (h : ∀ b ∈ bs, b < 256) :
    leBytes bs.length (leVal bs) = bs := by
  induction bs with
  | nil => rfl
  | cons b t ih =>
    have hb : b < 256 := h b (List.mem_cons_self ..)
    have ht : ∀ x ∈ t, x < 256 := fun x hx => h x (List.mem_cons_of_mem _ hx)
    show leBytes (t.length + 1) (leVal (b :: t)) = b :: t
    rw [leVal_cons]
    show (b + 256 * leVal t) % 256 :: leBytes t.length ((b + 256 * leVal t) / 256)
      = b :: t
    have h1 : (b + 256 * leVal t) % 256 = b := by omega
    have h2 : (b + 256 * leVal t) / 256 = leVal t := by omega
    rw [h1, h2, ih ht]

theorem writeU32_leVal {bs : List Nat} (hlen : bs.length = 4) (h : ∀ b ∈ bs, b < 256) :
    writeU32 (leVal bs) = bs := by
  rw [writeU32, ← hlen, leBytes_leVal h]

/-! ## The cursor: success and failure characterization of `readBytes`/`readByte` -/

/-- Everything a successful `n`-byte cursor read guarantees: the bytes were in
range, the result is exactly the byte slice `[off, off+n)`, the cursor
advanced by exactly `n`, and the read is unaffected by what lies at or beyond
its end. -/
theorem readBytes_ok {buf : Buf} {off n : Nat} {bs : List Nat} {o' : Nat}
    (h : readBytes buf off n = some (bs, o')) :
    off + n ≤ buf.length ∧ bs = extract buf off (off + n) ∧ o' = off + n ∧
    bs.length = n ∧
    (∀ ext, readBytes (buf.take o' ++ ext) off n = some (bs, o')) := by
  unfold readBytes at h
  split at h
  · cases h
  · next hgt =>
    have hle : off + n ≤ buf.length := by omega
    simp only [Option.some.injEq, Prod.mk.injEq] at h
    obtain ⟨hbs, ho⟩ := h
    subst ho
    subst hbs
    refine ⟨hle, rfl, rfl, ?_, ?_⟩
    · rw [extract_length (by omega) hle]
      omega
    · intro ext
      unfold readBytes
      rw [if_neg (by rw [List.length_append, List.length_take_of_le hle]; omega)]
      rw [extract_take_append ext (le_refl _) hle]

/-- The failure side of `readBytes`: too few bytes left means the read
reports failure (and, in the C++, leaves the cursor untouched). -/
theorem readBytes_fail {buf : Buf} {off n : Nat} (h : buf.length < off + n) :
    readBytes buf off n = none := by
  unfold readBytes
  rw [if_pos (by omega)]

theorem readByte_ok {buf : Buf} {off : Nat} {c o' : Nat}
    (h : readByte buf off = some (c, o')) :
    off < buf.length ∧ o' = off + 1 ∧ [c] = extract buf off (off + 1) ∧
    c ∈ buf ∧
    (∀ ext, readByte (buf.take o' ++ ext) off = some (c, o')) := by
  unfold readByte at h
  split at h
  · cases h
  · next hgt =>
    have hlt : off < buf.length := by omega
    simp only [Option.some.injEq, Prod.mk.injEq] at h
    obtain ⟨hc, ho⟩ := h
    have hgetD : buf.getD off 0 = buf[off] := by
      rw [List.getD_eq_getElem?_getD, List.getElem?_eq_getElem hlt]
      rfl
    have hex : [c] = extract buf off (off + 1) := by
      unfold extract
      have h1 : off + 1 - off = 1 := by omega
      have h2 : List.take 1 (List.drop off buf) = [buf[off]] := by
        rw [List.drop_eq_getElem_cons hlt, List.take_succ_cons, List.take_zero]
      rw [h1, h2, ← hc, hgetD]
    refine ⟨hlt, ho.symm, hex, ?_, ?_⟩
    · rw [← hc, hgetD]
      exact List.getElem_mem hlt
    · intro ext
      unfold readByte
      have hlen : (buf.take o').length = o' := List.length_take_of_le (by omega)
      rw [if_neg (by simp [hlen]; omega)]
      have : (buf.take o' ++ ext).getD off 0 = buf.getD off 0 := by
        rw [List.getD_eq_getElem?_getD, List.getD_eq_getElem?_getD,
          List.getElem?_append, hlen, if_pos (by omega),
          List.getElem?_take, if_pos (by omega)]
      rw [this, hc, ho]

theorem readByte_fail {buf : Buf} {off : Nat} (h : buf.length ≤ off) :
    readByte buf off = none := by
  unfold readByte
  rw [if_pos (by omega)]

/-! ## The master parser specification

For every parser we prove, from a successful parse, four facts at once: the
offsets are monotone and in bounds, the parse depends only on the consumed
bytes (any bytes at or beyond the final offset can be replaced freely), and —
for a well-formed buffer — writing the parsed value re-emits exactly the
consumed byte slice. -/
def ParseSpec {α : Type} (p : Buf → Nat → Except String (α × Nat)) (w : α → Buf)
    (buf : Buf) (off : Nat) (v : α) (off' : Nat) : Prop :=
  off ≤ off' ∧ off' ≤ buf.length ∧
  (∀ ext, p (buf.take off' ++ ext) off = .ok (v, off')) ∧
  (WFBuf buf → w v = extract buf off off')

/-- A step that is insensitive to bytes at or beyond `m` is also insensitive
to bytes at or beyond any later cut `off'`. -/
theorem extSpec_mono {α : Type} {r : α} {buf : Buf} {m off' : Nat}
    (f : Buf → Except String α) (hm : m ≤ off')
    (hext : ∀ ext, f (buf.take m ++ ext) = .ok r) (ext : Buf) :
    f (buf.take off' ++ ext) = .ok r := by
  rw [take_eq_append_extract buf hm, List.append_assoc]
  exact hext _

theorem readU32_spec {buf : Buf} {off : Nat} {msg : String} {v off' : Nat}
    (h : readU32 buf off msg = .ok (v, off')) :
    off' = off + 4 ∧ off' ≤ buf.length ∧
    (∀ ext, readU32 (buf.take off' ++ ext) off msg = .ok (v, off')) ∧
    (WFBuf buf → writeU32 v = extract buf off off') := by
  unfold readU32 at h
  split at h
  · exact Except.noConfusion h
  · next bs o hbs =>
    cases h
    obtain ⟨hle, hex, ho, hlen, hext⟩ := readBytes_ok hbs
    subst ho
    refine ⟨rfl, hle, ?_, ?_⟩
    · intro ext
      unfold readU32
      rw [hext ext]
    · intro W
      rw [hex] at hlen ⊢
      exact writeU32_leVal hlen (wf_extract W _ _)

theorem readSig_spec {buf : Buf} {off : Nat} {msg : String} {v : List Nat} {off' : Nat}
    (h : readSig buf off msg = .ok (v, off')) :
    off' = off + 4 ∧ off' ≤ buf.length ∧ v.length = 4 ∧
    (∀ ext, readSig (buf.take off' ++ ext) off msg = .ok (v, off')) ∧
    (v = extract buf off off') := by
  unfold readSig at h
  split at h
  · exact Except.noConfusion h
  · next bs o hbs =>
    cases h
    obtain ⟨hle, hex, ho, hlen, hext⟩ := readBytes_ok hbs
    subst ho
    refine ⟨rfl, hle, hlen, ?_, hex⟩
    intro ext
    unfold readSig
    rw [hext ext]

theorem readChar_spec {buf : Buf} {off : Nat} {msg : String} {c off' : Nat}
    (h : readChar buf off msg = .ok (c, off')) :
    off' = off + 1 ∧ off' ≤ buf.length ∧ c ∈ buf ∧
    ([c] = extract buf off off') ∧
    (∀ ext, readChar (buf.take off' ++ ext) off msg = .ok (c, off')) := by
  unfold readChar at h
  split at h
  · exact Except.noConfusion h
  · next b o hb =>
    cases h
    obtain ⟨hlt, ho, hex, hmem, hext⟩ := readByte_ok hb
    subst ho
    refine ⟨rfl, by omega, hmem, hex, ?_⟩
    intro ext
    unfold readChar
    rw [hext ext]

theorem vector3.vec3_spec {buf : Buf} {off : Nat} {v : vector3} {off' : Nat}
    (h : vector3.parse buf off = .ok (v, off')) :
    ParseSpec vector3.parse vector3.write buf off v off' := by
  unfold vector3.parse at h
  split at h
  · exact Except.noConfusion h
  next x o1 h1 =>
  split at h
  · exact Except.noConfusion h
  next y o2 h2 =>
  split at h
  · exact Except.noConfusion h
  next z o3 h3 =>
  cases h
  obtain ⟨e1, l1, x1, w1⟩ := readU32_spec h1
  obtain ⟨e2, l2, x2, w2⟩ := readU32_spec h2
  obtain ⟨e3, l3, x3, w3⟩ := readU32_spec h3
  refine ⟨by omega, l3, ?_, ?_⟩
  · intro ext
    unfold vector3.parse
    have g1 : readU32 (buf.take off' ++ ext) off "failed to read vector3.x"
        = .ok (x, o1) :=
      extSpec_mono (fun b => readU32 b off "failed to read vector3.x") (by omega) x1 ext
    have g2 : readU32 (buf.take off' ++ ext) o1 "failed to read vector3.y"
        = .ok (y, o2) :=
      extSpec_mono (fun b => readU32 b o1 "failed to read vector3.y") (by omega) x2 ext
    simp only [g1, g2, x3 ext]
  · intro W
    unfold vector3.write
    rw [w1 W, w2 W, w3 W, ← extract_split buf (by omega) (by omega),
      ← extract_split buf (by omega) (by omega)]

theorem arma_string.parseLoop_spec {buf : Buf} {fuel off : Nat} {s : List Nat}
    {off' : Nat} (h : arma_string.parseLoop buf off fuel = .ok (s, off')) :
    off' = off + s.length + 1 ∧ off' ≤ buf.length ∧ (∀ c ∈ s, c ≠ 0) ∧
    (s ++ [0] = extract buf off off') ∧
    (∀ ext f', s.length + 1 ≤ f' →
      arma_string.parseLoop (buf.take off' ++ ext) off f' = .ok (s, off')) := by
  induction fuel generalizing off s off' with
  | zero => exact Except.noConfusion h
  | succ fuel ih =>
    unfold parseLoop at h
    split at h
    · exact Except.noConfusion h
    next ch o1 hrc =>
    obtain ⟨e1, l1, _, hex1, x1⟩ := readChar_spec hrc
    split at h
    · next hch =>
      cases h
      subst hch
      refine ⟨by simpa using e1, l1, by simp, by simpa using hex1, ?_⟩
      intro ext f' hf'
      simp only [List.length_nil] at hf'
      obtain ⟨g, rfl⟩ : ∃ g, f' = g + 1 := ⟨f' - 1, by omega⟩
      unfold parseLoop
      simp [x1 ext]
    · next hch =>
      split at h
      · exact Except.noConfusion h
      next s1 o2 hrec =>
      cases h
      obtain ⟨e2, l2, hmem, hex2, x2⟩ := ih hrec
      refine ⟨by simp; omega, l2, ?_, ?_, ?_⟩
      · intro c hc
        rcases List.mem_cons.mp hc with rfl | hc2
        · exact hch
        · exact hmem c hc2
      · have hsplit : extract buf off off' = extract buf off o1 ++ extract buf o1 off' :=
          extract_split buf (by omega) (by omega)
        rw [List.cons_append, hsplit, ← hex1, ← hex2]
        rfl
      · intro ext f' hf'
        simp only [List.length_cons] at hf'
        obtain ⟨g, rfl⟩ : ∃ g, f' = g + 1 := ⟨f' - 1, by omega⟩
        unfold parseLoop
        have gx1 : readChar (buf.take off' ++ ext) off "failed to read arma_string[n]"
            = .ok (ch, o1) :=
          extSpec_mono (fun b => readChar b off "failed to read arma_string[n]")
            (by omega) x1 ext
        have gx2 : parseLoop (buf.take off' ++ ext) o1 g = .ok (s1, off') :=
          x2 ext g (by omega)
        simp only [gx1]
        rw [if_neg hch]
        simp only [gx2]

theorem arma_string.str_spec {buf : Buf} {off : Nat} {s : arma_string} {off' : Nat}
    (h : arma_string.parse buf off = .ok (s, off')) :
    ParseSpec arma_string.parse arma_string.write buf off s off' ∧
    off' = off + s.string.length + 1 ∧ (∀ c ∈ s.string, c ≠ 0) ∧
    buf.drop off = s.string ++ 0 :: buf.drop off' := by
  unfold parse at h
  split at h
  · exact Except.noConfusion h
  next s1 o hloop =>
  cases h
  obtain ⟨e1, l1, hmem, hex, x1⟩ := parseLoop_spec hloop
  have hdropchar : buf.drop off = s1 ++ 0 :: buf.drop off' := by
    have hsplit : buf.drop off
        = (buf.drop off).take (off' - off) ++ (buf.drop off).drop (off' - off) :=
      (List.take_append_drop _ _).symm
    have hdd : (buf.drop off).drop (off' - off) = buf.drop (off + (off' - off)) :=
      List.drop_drop ..
    have hoo : off + (off' - off) = off' := by omega
    rw [hdd, hoo] at hsplit
    have hexx : (buf.drop off).take (off' - off) = s1 ++ [0] := by
      rw [show (buf.drop off).take (off' - off) = extract buf off off' from rfl, ← hex]
    rw [hexx] at hsplit
    simpa using hsplit
  refine ⟨⟨by omega, l1, ?_, ?_⟩, e1, hmem, hdropchar⟩
  · intro ext
    unfold parse
    have hx : parseLoop (buf.take off' ++ ext) off
        ((buf.take off' ++ ext).length + 1 - off) = .ok (s1, off') := by
      apply x1
      rw [List.length_append, List.length_take_of_le l1]
      omega
    simp only [hx]
  · intro W
    unfold write
    exact hex

theorem extract_all {bs : List Nat} (hlen : bs.length ≤ n) : extract bs 0 n = bs := by
  unfold extract
  rw [List.drop_zero, List.take_of_length_le (by omega)]

theorem vert_descriptor.write_ofBytes {bs : List Nat} (hlen : bs.length = 16)
    (h : ∀ b ∈ bs, b < 256) :
    vert_descriptor.write (vert_descriptor.ofBytes bs) = bs := by
  unfold ofBytes write
  have g1 : writeU32 (leVal (extract bs 0 4)) = extract bs 0 4 :=
    writeU32_leVal (by rw [extract_length (by omega) (by omega)]) (wf_extract h 0 4)
  have g2 : writeU32 (leVal (extract bs 4 8)) = extract bs 4 8 :=
    writeU32_leVal (by rw [extract_length (by omega) (by omega)]) (wf_extract h 4 8)
  have g3 : writeU32 (leVal (extract bs 8 12)) = extract bs 8 12 :=
    writeU32_leVal (by rw [extract_length (by omega) (by omega)]) (wf_extract h 8 12)
  have g4 : writeU32 (leVal (extract bs 12 16)) = extract bs 12 16 :=
    writeU32_leVal (by rw [extract_length (by omega) (by omega)]) (wf_extract h 12 16)
  show writeU32 (leVal (extract bs 0 4)) ++ writeU32 (leVal (extract bs 4 8))
      ++ writeU32 (leVal (extract bs 8 12)) ++ writeU32 (leVal (extract bs 12 16)) = bs
  rw [g1, g2, g3, g4, List.append_assoc, List.append_assoc,
    ← extract_split bs (by omega) (by omega),
    ← extract_split bs (by omega) (by omega),
    ← extract_split bs (by omega) (by omega),
    extract_all (by omega)]

theorem mlod_face.readVertex_spec {buf : Buf} {off : Nat} {d : vert_descriptor}
    {off' : Nat} (h : mlod_face.readVertex buf off = .ok (d, off')) :
    ParseSpec mlod_face.readVertex vert_descriptor.write buf off d off' := by
  unfold readVertex at h
  split at h
  · exact Except.noConfusion h
  next bs o hbs =>
  cases h
  obtain ⟨hle, hex, ho, hlen, hext⟩ := readBytes_ok hbs
  subst ho
  subst hex
  refine ⟨by omega, hle, ?_, ?_⟩
  · intro ext
    unfold readVertex
    rw [hext ext]
  · intro W
    rw [vert_descriptor.write_ofBytes hlen (wf_extract W _ _)]

theorem parseCount_spec {α : Type} {p : Buf → Nat → Except String (α × Nat)}
    (w : α → Buf)
    (hp : ∀ {buf : Buf} {off : Nat} {v : α} {off' : Nat},
      p buf off = .ok (v, off') → ParseSpec p w buf off v off')
    {buf : Buf} {off n : Nat} {vs : List α} {off' : Nat}
    (hoff : off ≤ buf.length)
    (h : parseCount p buf off n = .ok (vs, off')) :
    vs.length = n ∧ off ≤ off' ∧ off' ≤ buf.length ∧
    (∀ ext, parseCount p (buf.take off' ++ ext) off n = .ok (vs, off')) ∧
    (WFBuf buf → (vs.map w).flatten = extract buf off off') := by
  induction n generalizing off vs off' with
  | zero =>
    unfold parseCount at h
    cases h
    refine ⟨rfl, le_refl _, hoff, ?_, ?_⟩
    · intro ext
      unfold parseCount
      rfl
    · intro W
      rw [extract_same]
      rfl
  | succ n ih =>
    unfold parseCount at h
    split at h
    · exact Except.noConfusion h
    next a o1 h1 =>
    split at h
    · exact Except.noConfusion h
    next as o2 h2 =>
    cases h
    obtain ⟨le1, len1, ext1, w1⟩ := hp h1
    obtain ⟨hlen, le2, len2, ext2, w2⟩ := ih len1 h2
    refine ⟨by simp [hlen], by omega, len2, ?_, ?_⟩
    · intro ext
      unfold parseCount
      have g1 : p (buf.take off' ++ ext) off = .ok (a, o1) :=
        extSpec_mono (fun b => p b off) (by omega) ext1 ext
      have g2 : parseCount p (buf.take off' ++ ext) o1 n = .ok (as, off') := ext2 ext
      simp only [g1, g2]
    · intro W
      simp only [List.map_cons, List.flatten_cons]
      rw [w1 W, w2 W, ← extract_split buf (by omega) (by omega)]

theorem mlod_point.point_spec {buf : Buf} {off : Nat} {pt : mlod_point} {off' : Nat}
    (h : mlod_point.parse buf off = .ok (pt, off')) :
    ParseSpec mlod_point.parse mlod_point.write buf off pt off' := by
  unfold parse at h
  split at h
  · exact Except.noConfusion h
  next pos o1 h1 =>
  split at h
  · exact Except.noConfusion h
  next fl o2 h2 =>
  cases h
  obtain ⟨le1, len1, ext1, w1⟩ := vector3.vec3_spec h1
  obtain ⟨e2, len2, ext2, w2⟩ := readU32_spec h2
  refine ⟨by omega, len2, ?_, ?_⟩
  · intro ext
    unfold parse
    have g1 : vector3.parse (buf.take off' ++ ext) off = .ok (pos, o1) :=
      extSpec_mono (fun b => vector3.parse b off) (by omega) ext1 ext
    simp only [g1, ext2 ext]
  · intro W
    unfold write
    rw [w1 W, w2 W, ← extract_split buf (by omega) (by omega)]

theorem mlod_face.face_spec {buf : Buf} {off : Nat} {f : mlod_face} {off' : Nat}
    (h : mlod_face.parse buf off = .ok (f, off')) :
    ParseSpec mlod_face.parse mlod_face.write buf off f off' ∧
    f.vertices.length = 4 := by
  unfold parse at h
  split at h
  · exact Except.noConfusion h
  next ft o1 h1 =>
  split at h
  · exact Except.noConfusion h
  next verts o2 h2 =>
  split at h
  · exact Except.noConfusion h
  next ff o3 h3 =>
  split at h
  · exact Except.noConfusion h
  next tex o4 h4 =>
  split at h
  · exact Except.noConfusion h
  next mat o5 h5 =>
  cases h
  obtain ⟨e1, len1, ext1, w1⟩ := readU32_spec h1
  obtain ⟨hvlen, le2, len2, ext2, w2⟩ :=
    parseCount_spec vert_descriptor.write (fun h => mlod_face.readVertex_spec h)
      (by omega) h2
  obtain ⟨e3, len3, ext3, w3⟩ := readU32_spec h3
  obtain ⟨⟨le4, len4, ext4, w4⟩, e4, _, _⟩ := arma_string.str_spec h4
  obtain ⟨⟨le5, len5, ext5, w5⟩, e5, _, _⟩ := arma_string.str_spec h5
  refine ⟨⟨by omega, len5, ?_, ?_⟩, hvlen⟩
  · intro ext
    unfold parse
    have g1 : readU32 (buf.take off' ++ ext) off "failed to read mlod_face.face_type"
        = .ok (ft, o1) :=
      extSpec_mono (fun b => readU32 b off "failed to read mlod_face.face_type")
        (by omega) ext1 ext
    have g2 : parseCount mlod_face.readVertex (buf.take off' ++ ext) o1 4
        = .ok (verts, o2) :=
      extSpec_mono (fun b => parseCount mlod_face.readVertex b o1 4) (by omega) ext2 ext
    have g3 : readU32 (buf.take off' ++ ext) o2 "failed to read mlod_face.face_flags"
        = .ok (ff, o3) :=
      extSpec_mono (fun b => readU32 b o2 "failed to read mlod_face.face_flags")
        (by omega) ext3 ext
    have g4 : arma_string.parse (buf.take off' ++ ext) o3 = .ok (tex, o4) :=
      extSpec_mono (fun b => arma_string.parse b o3) (by omega) ext4 ext
    simp only [g1, g2, g3, g4, ext5 ext]
  · intro W
    unfold write
    rw [w1 W, w2 W, w3 W, w4 W, w5 W,
      List.append_assoc, List.append_assoc, List.append_assoc,
      ← extract_split buf (by omega) (by omega),
      ← extract_split buf (by omega) (by omega),
      ← extract_split buf (by omega) (by omega),
      ← extract_split buf (by omega) (by omega)]

theorem mlod_tag.readData_spec {buf : Buf} {off n : Nat} {bs : List Nat} {off' : Nat}
    (hoff : off ≤ buf.length)
    (h : mlod_tag.readData buf off n = .ok (bs, off')) :
    bs.length = n ∧ off ≤ off' ∧ off' ≤ buf.length ∧
    (∀ ext, mlod_tag.readData (buf.take off' ++ ext) off n = .ok (bs, off')) ∧
    (bs = extract buf off off') := by
  induction n generalizing off bs off' with
  | zero =>
    unfold readData at h
    cases h
    refine ⟨rfl, le_refl _, hoff, ?_, ?_⟩
    · intro ext
      unfold readData
      rfl
    · rw [extract_same]
  | succ n ih =>
    unfold readData at h
    split at h
    · exact Except.noConfusion h
    next b o1 h1 =>
    split at h
    · exact Except.noConfusion h
    next rest o2 h2 =>
    cases h
    obtain ⟨e1, len1, _, hex1, ext1⟩ := readChar_spec h1
    obtain ⟨hlen, le2, len2, ext2, hex2⟩ := ih len1 h2
    refine ⟨by simp [hlen], by omega, len2, ?_, ?_⟩
    · intro ext
      unfold readData
      have g1 : readChar (buf.take off' ++ ext) off "failed to read mlod_tag.data[m]"
          = .ok (b, o1) :=
        extSpec_mono (fun x => readChar x off "failed to read mlod_tag.data[m]")
          (by omega) ext1 ext
      simp only [g1, ext2 ext]
    · rw [extract_split buf (show off ≤ o1 by omega) (show o1 ≤ off' by omega),
        ← hex1, ← hex2]
      rfl

theorem mlod_tag.tag_spec {buf : Buf} {off : Nat} {t : mlod_tag} {off' : Nat}
    (h : mlod_tag.parse buf off = .ok (t, off')) :
    ParseSpec mlod_tag.parse mlod_tag.write buf off t off' ∧ off < off' := by
  unfold parse at h
  split at h
  · exact Except.noConfusion h
  next act o1 h1 =>
  split at h
  · exact Except.noConfusion h
  next name o2 h2 =>
  split at h
  · exact Except.noConfusion h
  next len o3 h3 =>
  split at h
  · exact Except.noConfusion h
  next data o4 h4 =>
  cases h
  obtain ⟨e1, len1, _, hex1, ext1⟩ := readChar_spec h1
  obtain ⟨⟨le2, len2, ext2, w2⟩, e2, _, _⟩ := arma_string.str_spec h2
  obtain ⟨e3, len3, ext3, w3⟩ := readU32_spec h3
  obtain ⟨hdlen, le4, len4, ext4, hex4⟩ := mlod_tag.readData_spec len3 h4
  refine ⟨⟨by omega, len4, ?_, ?_⟩, by omega⟩
  · intro ext
    unfold parse
    have g1 : readChar (buf.take off' ++ ext) off "failed to read mlod_tag.active"
        = .ok (act, o1) :=
      extSpec_mono (fun b => readChar b off "failed to read mlod_tag.active")
        (by omega) ext1 ext
    have g2 : arma_string.parse (buf.take off' ++ ext) o1 = .ok (name, o2) :=
      extSpec_mono (fun b => arma_string.parse b o1) (by omega) ext2 ext
    have g3 : readU32 (buf.take off' ++ ext) o2 "failed to read mlod_tag.data_length"
        = .ok (len, o3) :=
      extSpec_mono (fun b => readU32 b o2 "failed to read mlod_tag.data_length")
        (by omega) ext3 ext
    simp only [g1, g2, g3, ext4 ext]
  · intro W
    unfold write
    rw [w2 W, w3 W, hex4,
      List.append_assoc, List.append_assoc,
      ← extract_split buf (show o2 ≤ o3 by omega) (show o3 ≤ off' by omega),
      ← extract_split buf (show o1 ≤ o2 by omega) (show o2 ≤ off' by omega)]
    rw [show ([act] : Buf) ++ extract buf o1 off' = extract buf off off' from by
      rw [hex1, ← extract_split buf (show off ≤ o1 by omega) (show o1 ≤ off' by omega)]]

theorem getLastD_of_ne_nil {α : Type} {l : List α} (h : l ≠ []) (d1 d2 : α) :
    l.getLastD d1 = l.getLastD d2 := by
  cases l with
  | nil => exact absurd rfl h
  | cons a t => rw [List.getLastD_cons, List.getLastD_cons]

/-- The default tag value (the fields of a value-initialized `mlod_tag\x7b\x7d`). -/
def defaultTag : mlod_tag := ⟨0, ⟨[]⟩, 0, []⟩

theorem mlod_lod.parseTagLoop_spec {buf : Buf} {np fuel : Nat}
    {acc : List mlod_tag} {props : List property_tag} {m : mass_tag} {off : Nat}
    {tags' : List mlod_tag} {props' : List property_tag} {m' : mass_tag} {off' : Nat}
    (h : mlod_lod.parseTagLoop buf np acc props m off fuel
      = .ok ((tags', props', m'), off')) :
    off ≤ off' ∧ off' ≤ buf.length ∧
    ∃ new, tags' = acc ++ new ∧ new ≠ [] ∧ off + new.length ≤ off' ∧
      (new.getLastD defaultTag).tag_name.string = endOfFileTagName ∧
      (∀ ext f', new.length ≤ f' →
        mlod_lod.parseTagLoop (buf.take off' ++ ext) np acc props m off f'
          = .ok ((tags', props', m'), off')) ∧
      (WFBuf buf → (new.map mlod_tag.write).flatten = extract buf off off') := by
  induction fuel generalizing acc props m off tags' props' m' off' with
  | zero => exact Except.noConfusion h
  | succ fuel ih =>
    unfold parseTagLoop at h
    split at h
    · exact Except.noConfusion h
    next tag o1 h1 =>
    obtain ⟨⟨le1, len1, ext1, w1⟩, lt1⟩ := mlod_tag.tag_spec h1
    split at h
    · next hend =>
      cases h
      refine ⟨by omega, len1, [tag], rfl, by simp, by simp; omega, by simp [hend], ?_, ?_⟩
      · intro ext f' hf'
        simp only [List.length_cons, List.length_nil] at hf'
        obtain ⟨g, rfl⟩ : ∃ g, f' = g + 1 := ⟨f' - 1, by omega⟩
        unfold parseTagLoop
        simp only [ext1 ext]
        rw [if_pos hend]
      · intro W
        simp only [List.map_cons, List.map_nil, List.flatten_cons, List.flatten_nil,
          List.append_nil]
        exact w1 W
    · next hend =>
      obtain ⟨le2, len2, new1, htags, hne, hlen2, hlast, ext2, w2⟩ := ih h
      refine ⟨by omega, len2, tag :: new1, by simp [htags], by simp,
        by simp; omega, ?_, ?_, ?_⟩
      · rw [List.getLastD_cons]
        rw [getLastD_of_ne_nil hne tag defaultTag]
        exact hlast
      · intro ext f' hf'
        simp only [List.length_cons] at hf'
        obtain ⟨g, rfl⟩ : ∃ g, f' = g + 1 := ⟨f' - 1, by omega⟩
        unfold parseTagLoop
        have g1 : mlod_tag.parse (buf.take off' ++ ext) off = .ok (tag, o1) :=
          extSpec_mono (fun b => mlod_tag.parse b off) (by omega) ext1 ext
        simp only [g1]
        rw [if_neg hend]
        exact ext2 ext g (by omega)
      · intro W
        simp only [List.map_cons, List.flatten_cons]
        rw [w1 W, w2 W, ← extract_split buf (show off ≤ o1 by omega) (by omega)]

theorem mlod_lod.lod_spec {buf : Buf} {off : Nat} {lod : mlod_lod} {off' : Nat}
    (h : mlod_lod.parse buf off = .ok (lod, off')) :
    ParseSpec mlod_lod.parse mlod_lod.write buf off lod off' ∧
    lod.tags ≠ [] ∧
    (lod.tags.getLastD defaultTag).tag_name.string = endOfFileTagName := by
  unfold parse at h
  split at h
  · exact Except.noConfusion h
  next sig o1 hs1 =>
  split at h
  · exact Except.noConfusion h
  next minv o2 hs2 =>
  split at h
  · exact Except.noConfusion h
  next majv o3 hs3 =>
  split at h
  · exact Except.noConfusion h
  next np o4 hs4 =>
  split at h
  · exact Except.noConfusion h
  next nfn o5 hs5 =>
  split at h
  · exact Except.noConfusion h
  next nf o6 hs6 =>
  split at h
  · exact Except.noConfusion h
  next fl o7 hs7 =>
  split at h
  · exact Except.noConfusion h
  next points o8 hs8 =>
  split at h
  · exact Except.noConfusion h
  next normals o9 hs9 =>
  split at h
  · exact Except.noConfusion h
  next faces o10 hs10 =>
  split at h
  · exact Except.noConfusion h
  next tsig o11 hs11 =>
  split at h
  · exact Except.noConfusion h
  next tags props mass o12 hs12 =>
  split at h
  · exact Except.noConfusion h
  next res o13 hs13 =>
  cases h
  obtain ⟨e1, l1, _, x1, hexsig⟩ := readSig_spec hs1
  obtain ⟨e2, l2, x2, w2⟩ := readU32_spec hs2
  obtain ⟨e3, l3, x3, w3⟩ := readU32_spec hs3
  obtain ⟨e4, l4, x4, w4⟩ := readU32_spec hs4
  obtain ⟨e5, l5, x5, w5⟩ := readU32_spec hs5
  obtain ⟨e6, l6, x6, w6⟩ := readU32_spec hs6
  obtain ⟨e7, l7, x7, w7⟩ := readU32_spec hs7
  obtain ⟨_, le8, l8, x8, w8⟩ :=
    parseCount_spec mlod_point.write (fun h => mlod_point.point_spec h) (by omega) hs8
  obtain ⟨_, le9, l9, x9, w9⟩ :=
    parseCount_spec vector3.write (fun h => vector3.vec3_spec h) l8 hs9
  obtain ⟨_, le10, l10, x10, w10⟩ :=
    parseCount_spec mlod_face.write (fun h => (mlod_face.face_spec h).1) l9 hs10
  obtain ⟨e11, l11, _, x11, hextsig⟩ := readSig_spec hs11
  obtain ⟨le12, l12, new, htags, hne, hlen12, hlast, x12, w12⟩ :=
    parseTagLoop_spec hs12
  simp only [List.nil_append] at htags
  subst htags
  obtain ⟨e13, l13, x13, w13⟩ := readU32_spec hs13
  refine ⟨⟨by omega, l13, ?_, ?_⟩, hne, hlast⟩
  · intro ext
    unfold parse
    have g1 : readSig (buf.take off' ++ ext) off "failed to read mlod_lod.signature"
        = .ok (sig, o1) :=
      extSpec_mono (fun b => readSig b off "failed to read mlod_lod.signature")
        (by omega) x1 ext
    have g2 : readU32 (buf.take off' ++ ext) o1 "failed to read mlod_lod.minor_version"
        = .ok (minv, o2) :=
      extSpec_mono (fun b => readU32 b o1 "failed to read mlod_lod.minor_version")
        (by omega) x2 ext
    have g3 : readU32 (buf.take off' ++ ext) o2 "failed to read mlod_lod.major_version"
        = .ok (majv, o3) :=
      extSpec_mono (fun b => readU32 b o2 "failed to read mlod_lod.major_version")
        (by omega) x3 ext
    have g4 : readU32 (buf.take off' ++ ext) o3 "failed to read mlod_lod.num_points"
        = .ok (np, o4) :=
      extSpec_mono (fun b => readU32 b o3 "failed to read mlod_lod.num_points")
        (by omega) x4 ext
    have g5 : readU32 (buf.take off' ++ ext) o4 "failed to read mlod_lod.num_face_normals"
        = .ok (nfn, o5) :=
      extSpec_mono (fun b => readU32 b o4 "failed to read mlod_lod.num_face_normals")
        (by omega) x5 ext
    have g6 : readU32 (buf.take off' ++ ext) o5 "failed to read mlod_lod.num_faces"
        = .ok (nf, o6) :=
      extSpec_mono (fun b => readU32 b o5 "failed to read mlod_lod.num_faces")
        (by omega) x6 ext
    have g7 : readU32 (buf.take off' ++ ext) o6 "failed to read mlod_lod.flags"
        = .ok (fl, o7) :=
      extSpec_mono (fun b => readU32 b o6 "failed to read mlod_lod.flags")
        (by omega) x7 ext
    have g8 : parseCount mlod_point.parse (buf.take off' ++ ext) o7 np
        = .ok (points, o8) :=
      extSpec_mono (fun b => parseCount mlod_point.parse b o7 np) (by omega) x8 ext
    have g9 : parseCount vector3.parse (buf.take off' ++ ext) o8 nfn
        = .ok (normals, o9) :=
      extSpec_mono (fun b => parseCount vector3.parse b o8 nfn) (by omega) x9 ext
    have g10 : parseCount mlod_face.parse (buf.take off' ++ ext) o9 nf
        = .ok (faces, o10) :=
      extSpec_mono (fun b => parseCount mlod_face.parse b o9 nf) (by omega) x10 ext
    have g11 : readSig (buf.take off' ++ ext) o10 "failed to read mlod_lod.tag_sig"
        = .ok (tsig, o11) :=
      extSpec_mono (fun b => readSig b o10 "failed to read mlod_lod.tag_sig")
        (by omega) x11 ext
    have hloopx : ∀ e, mlod_lod.parseTagLoop (buf.take o12 ++ e) np [] [] ⟨[]⟩ o11
        ((buf.take o12 ++ e).length + 1 - o11) = .ok ((tags, props, mass), o12) := by
      intro e
      apply x12 e
      rw [List.length_append, List.length_take_of_le l12]
      omega
    have g12 : mlod_lod.parseTagLoop (buf.take off' ++ ext) np [] [] ⟨[]⟩ o11
        ((buf.take off' ++ ext).length + 1 - o11) = .ok ((tags, props, mass), o12) :=
      extSpec_mono
        (fun b => mlod_lod.parseTagLoop b np [] [] ⟨[]⟩ o11 (b.length + 1 - o11))
        (by omega) hloopx ext
    simp only [g1, g2, g3, g4, g5, g6, g7, g8, g9, g10, g11, g12, x13 ext]
  · intro W
    unfold write
    rw [hexsig, w2 W, w3 W, w4 W, w5 W, w6 W, w7 W, w8 W, w9 W, w10 W, hextsig,
      w12 W, w13 W]
    simp only [List.append_assoc]
    rw [← extract_split buf (show o11 ≤ o12 by omega) (by omega),
      ← extract_split buf (show o10 ≤ o11 by omega) (by omega),
      ← extract_split buf (show o9 ≤ o10 by omega) (by omega),
      ← extract_split buf (show o8 ≤ o9 by omega) (by omega),
      ← extract_split buf (show o7 ≤ o8 by omega) (by omega),
      ← extract_split buf (show o6 ≤ o7 by omega) (by omega),
      ← extract_split buf (show o5 ≤ o6 by omega) (by omega),
      ← extract_split buf (show o4 ≤ o5 by omega) (by omega),
      ← extract_split buf (show o3 ≤ o4 by omega) (by omega),
      ← extract_split buf (show o2 ≤ o3 by omega) (by omega),
      ← extract_split buf (show o1 ≤ o2 by omega) (by omega),
      ← extract_split buf (show off ≤ o1 by omega) (by omega)]

theorem p3d_header.header_spec {buf : Buf} {off : Nat} {hd : p3d_header} {off' : Nat}
    (h : p3d_header.parse buf off = .ok (hd, off')) :
    ParseSpec p3d_header.parse p3d_header.write buf off hd off' := by
  unfold parse at h
  split at h
  · exact Except.noConfusion h
  next sig o1 h1 =>
  split at h
  · exact Except.noConfusion h
  next ver o2 h2 =>
  split at h
  · exact Except.noConfusion h
  next lc o3 h3 =>
  cases h
  obtain ⟨e1, l1, _, x1, hexsig⟩ := readSig_spec h1
  obtain ⟨e2, l2, x2, w2⟩ := readU32_spec h2
  obtain ⟨e3, l3, x3, w3⟩ := readU32_spec h3
  refine ⟨by omega, l3, ?_, ?_⟩
  · intro ext
    unfold parse
    have g1 : readSig (buf.take off' ++ ext) off "failed to read p3d_header.signature"
        = .ok (sig, o1) :=
      extSpec_mono (fun b => readSig b off "failed to read p3d_header.signature")
        (by omega) x1 ext
    have g2 : readU32 (buf.take off' ++ ext) o1 "failed to read p3d_header.version"
        = .ok (ver, o2) :=
      extSpec_mono (fun b => readU32 b o1 "failed to read p3d_header.version")
        (by omega) x2 ext
    simp only [g1, g2, x3 ext]
  · intro W
    unfold write
    rw [hexsig, w2 W, w3 W, List.append_assoc,
      ← extract_split buf (show o1 ≤ o2 by omega) (by omega),
      ← extract_split buf (show off ≤ o1 by omega) (by omega)]

theorem mlod_p3d.p3d_spec {buf : Buf} {off : Nat} {d : mlod_p3d} {off' : Nat}
    (h : mlod_p3d.parse buf off = .ok (d, off')) :
    ParseSpec mlod_p3d.parse mlod_p3d.write buf off d off' ∧
    d.lods.length = d.header.lod_count := by
  unfold parse at h
  split at h
  · exact Except.noConfusion h
  next hd o1 h1 =>
  split at h
  · exact Except.noConfusion h
  next lods o2 h2 =>
  cases h
  obtain ⟨le1, l1, x1, w1⟩ := p3d_header.header_spec h1
  obtain ⟨hlen, le2, l2, x2, w2⟩ :=
    parseCount_spec mlod_lod.write (fun h => (mlod_lod.lod_spec h).1) l1 h2
  refine ⟨⟨by omega, l2, ?_, ?_⟩, hlen⟩
  · intro ext
    unfold parse
    have g1 : p3d_header.parse (buf.take off' ++ ext) off = .ok (hd, o1) :=
      extSpec_mono (fun b => p3d_header.parse b off) (by omega) x1 ext
    simp only [g1, x2 ext]
  · intro W
    unfold write
    rw [w1 W, w2 W, ← extract_split buf (show off ≤ o1 by omega) (by omega)]

/-! ## Truncation: a proper prefix of what a parse consumed cannot parse -/

/-- Any parser enjoying the bounds and extension properties of `ParseSpec`
fails on every truncation of the buffer strictly below its final offset:
a successful parse of the truncated buffer would extend to a second,
different successful parse of the whole buffer. -/
theorem trunc_fails {α : Type} (p : Buf → Nat → Except String (α × Nat))
    (hspec : ∀ {b : Buf} {o : Nat} {v : α} {o' : Nat}, p b o = .ok (v, o') →
      o' ≤ b.length ∧ (∀ ext, p (b.take o' ++ ext) o = .ok (v, o')))
    {buf : Buf} {off : Nat} {v : α} {off' : Nat}
    (h : p buf off = .ok (v, off')) {m : Nat} (hm : m < off') :
    (p (buf.take m) off).isOk = false := by
  cases hres : p (buf.take m) off with
  | error e => rfl
  | ok r =>
    exfalso
    obtain ⟨v', n'⟩ := r
    obtain ⟨hlen', hext'⟩ := hspec hres
    have hn'm : n' ≤ m := by
      rw [List.length_take] at hlen'
      omega
    have heq : (buf.take m).take n' ++ buf.drop n' = buf := by
      rw [List.take_take, min_eq_left hn'm, List.take_append_drop]
    have hbuf := hext' (buf.drop n')
    rw [heq, h] at hbuf
    have : off' = n' := by
      simp only [Except.ok.injEq, Prod.mk.injEq] at hbuf
      exact hbuf.2
    omega

/-! ## Every decode error names the field whose cursor read failed -/

/-- The complete set of error messages the document decoder can produce:
one fixed string per struct field, with no element indices and no path from
the document root. -/
def fieldErrorMessages : List String :=
  ["failed to read p3d_header.signature",
   "failed to read p3d_header.version",
   "failed to read p3d_header.lod_count",
   "failed to read mlod_lod.signature",
   "failed to read mlod_lod.minor_version",
   "failed to read mlod_lod.major_version",
   "failed to read mlod_lod.num_points",
   "failed to read mlod_lod.num_face_normals",
   "failed to read mlod_lod.num_faces",
   "failed to read mlod_lod.flags",
   "failed to read mlod_lod.tag_sig",
   "failed to read mlod_lod.resolution",
   "failed to read mlod_point.flags",
   "failed to read vector3.x",
   "failed to read vector3.y",
   "failed to read vector3.z",
   "failed to read mlod_face.face_type",
   "failed to read mlod_face.vertices[n]",
   "failed to read mlod_face.face_flags",
   "failed to read arma_string[n]",
   "failed to read mlod_tag.active",
   "failed to read mlod_tag.data_length",
   "failed to read mlod_tag.data[m]"]

theorem readU32_err {buf : Buf} {off : Nat} {msg e : String}
    (h : readU32 buf off msg = .error e) : e = msg := by
  unfold readU32 at h
  split at h
  · injection h with h1
    exact h1.symm
  · exact Except.noConfusion h

theorem readSig_err {buf : Buf} {off : Nat} {msg e : String}
    (h : readSig buf off msg = .error e) : e = msg := by
  unfold readSig at h
  split at h
  · injection h with h1
    exact h1.symm
  · exact Except.noConfusion h

theorem readChar_err {buf : Buf} {off : Nat} {msg e : String}
    (h : readChar buf off msg = .error e) : e = msg := by
  unfold readChar at h
  split at h
  · injection h with h1
    exact h1.symm
  · exact Except.noConfusion h

theorem vector3.vec3_err {buf : Buf} {off : Nat} {e : String}
    (h : vector3.parse buf off = .error e) : e ∈ fieldErrorMessages := by
  unfold parse at h
  split at h
  · next e1 h1 =>
    injection h with he
    rw [← he, readU32_err h1]
    decide
  next x o1 h1 =>
  split at h
  · next e2 h2 =>
    injection h with he
    rw [← he, readU32_err h2]
    decide
  next y o2 h2 =>
  split at h
  · next e3 h3 =>
    injection h with he
    rw [← he, readU32_err h3]
    decide
  next z o3 h3 => exact Except.noConfusion h

theorem arma_string.parseLoop_err {buf : Buf} {off fuel : Nat} {e : String}
    (h : arma_string.parseLoop buf off fuel = .error e) :
    e = "failed to read arma_string[n]" := by
  induction fuel generalizing off e with
  | zero =>
    injection h with he
    exact he.symm
  | succ fuel ih =>
    unfold parseLoop at h
    split at h
    · next e1 h1 =>
      injection h with he
      rw [← he, readChar_err h1]
    next ch o1 h1 =>
    split at h
    · exact Except.noConfusion h
    · split at h
      · next e2 h2 =>
        injection h with he
        rw [← he]
        exact ih h2
      · exact Except.noConfusion h

theorem arma_string.str_err {buf : Buf} {off : Nat} {e : String}
    (h : arma_string.parse buf off = .error e) : e ∈ fieldErrorMessages := by
  unfold parse at h
  split at h
  · next e1 h1 =>
    injection h with he
    rw [← he, arma_string.parseLoop_err h1]
    decide
  · exact Except.noConfusion h

theorem mlod_face.readVertex_err {buf : Buf} {off : Nat} {e : String}
    (h : mlod_face.readVertex buf off = .error e) : e ∈ fieldErrorMessages := by
  unfold readVertex at h
  split at h
  · injection h with he
    rw [← he]
    decide
  · exact Except.noConfusion h

theorem parseCount_err {α : Type} {p : Buf → Nat → Except String (α × Nat)}
    (hp : ∀ {buf : Buf} {off : Nat} {e : String},
      p buf off = .error e → e ∈ fieldErrorMessages)
    {buf : Buf} {off n : Nat} {e : String}
    (h : parseCount p buf off n = .error e) : e ∈ fieldErrorMessages := by
  induction n generalizing off e with
  | zero =>
    unfold parseCount at h
    exact Except.noConfusion h
  | succ n ih =>
    unfold parseCount at h
    split at h
    · next e1 h1 =>
      injection h with he
      rw [← he]
      exact hp h1
    next a o1 h1 =>
    split at h
    · next e2 h2 =>
      injection h with he
      rw [← he]
      exact ih h2
    · exact Except.noConfusion h

theorem mlod_point.point_err {buf : Buf} {off : Nat} {e : String}
    (h : mlod_point.parse buf off = .error e) : e ∈ fieldErrorMessages := by
  unfold parse at h
  split at h
  · next e1 h1 =>
    injection h with he
    rw [← he]
    exact vector3.vec3_err h1
  next pos o1 h1 =>
  split at h
  · next e2 h2 =>
    injection h with he
    rw [← he, readU32_err h2]
    decide
  · exact Except.noConfusion h

theorem mlod_face.face_err {buf : Buf} {off : Nat} {e : String}
    (h : mlod_face.parse buf off = .error e) : e ∈ fieldErrorMessages := by
  unfold parse at h
  split at h
  · next e1 h1 =>
    injection h with he
    rw [← he, readU32_err h1]
    decide
  next ft o1 h1 =>
  split at h
  · next e2 h2 =>
    injection h with he
    rw [← he]
    exact parseCount_err (fun h => mlod_face.readVertex_err h) h2
  next verts o2 h2 =>
  split at h
  · next e3 h3 =>
    injection h with he
    rw [← he, readU32_err h3]
    decide
  next ff o3 h3 =>
  split at h
  · next e4 h4 =>
    injection h with he
    rw [← he]
    exact arma_string.str_err h4
  next tex o4 h4 =>
  split at h
  · next e5 h5 =>
    injection h with he
    rw [← he]
    exact arma_string.str_err h5
  · exact Except.noConfusion h

theorem mlod_tag.readData_err {buf : Buf} {off n : Nat} {e : String}
    (h : mlod_tag.readData buf off n = .error e) : e ∈ fieldErrorMessages := by
  induction n generalizing off e with
  | zero =>
    unfold readData at h
    exact Except.noConfusion h
  | succ n ih =>
    unfold readData at h
    split at h
    · next e1 h1 =>
      injection h with he
      rw [← he, readChar_err h1]
      decide
    next b o1 h1 =>
    split at h
    · next e2 h2 =>
      injection h with he
      rw [← he]
      exact ih h2
    · exact Except.noConfusion h

theorem mlod_tag.tag_err {buf : Buf} {off : Nat} {e : String}
    (h : mlod_tag.parse buf off = .error e) : e ∈ fieldErrorMessages := by
  unfold parse at h
  split at h
  · next e1 h1 =>
    injection h with he
    rw [← he, readChar_err h1]
    decide
  next act o1 h1 =>
  split at h
  · next e2 h2 =>
    injection h with he
    rw [← he]
    exact arma_string.str_err h2
  next name o2 h2 =>
  split at h
  · next e3 h3 =>
    injection h with he
    rw [← he, readU32_err h3]
    decide
  next len o3 h3 =>
  split at h
  · next e4 h4 =>
    injection h with he
    rw [← he]
    exact mlod_tag.readData_err h4
  · exact Except.noConfusion h

theorem mlod_lod.parseTagLoop_err {buf : Buf} {np fuel : Nat}
    {acc : List mlod_tag} {props : List property_tag} {m : mass_tag} {off : Nat}
    {e : String}
    (h : mlod_lod.parseTagLoop buf np acc props m off fuel = .error e) :
    e ∈ fieldErrorMessages := by
  induction fuel generalizing acc props m off e with
  | zero =>
    injection h with he
    rw [← he]
    decide
  | succ fuel ih =>
    unfold parseTagLoop at h
    split at h
    · next e1 h1 =>
      injection h with he
      rw [← he]
      exact mlod_tag.tag_err h1
    next tag o1 h1 =>
    split at h
    · exact Except.noConfusion h
    · exact ih h

theorem mlod_lod.lod_err {buf : Buf} {off : Nat} {e : String}
    (h : mlod_lod.parse buf off = .error e) : e ∈ fieldErrorMessages := by
  unfold parse at h
  split at h
  · next e1 h1 =>
    injection h with he
    rw [← he, readSig_err h1]
    decide
  next sig o1 h1 =>
  split at h
  · next e2 h2 =>
    injection h with he
    rw [← he, readU32_err h2]
    decide
  next minv o2 h2 =>
  split at h
  · next e3 h3 =>
    injection h with he
    rw [← he, readU32_err h3]
    decide
  next majv o3 h3 =>
  split at h
  · next e4 h4 =>
    injection h with he
    rw [← he, readU32_err h4]
    decide
  next np o4 h4 =>
  split at h
  · next e5 h5 =>
    injection h with he
    rw [← he, readU32_err h5]
    decide
  next nfn o5 h5 =>
  split at h
  · next e6 h6 =>
    injection h with he
    rw [← he, readU32_err h6]
    decide
  next nf o6 h6 =>
  split at h
  · next e7 h7 =>
    injection h with he
    rw [← he, readU32_err h7]
    decide
  next fl o7 h7 =>
  split at h
  · next e8 h8 =>
    injection h with he
    rw [← he]
    exact parseCount_err (fun h => mlod_point.point_err h) h8
  next points o8 h8 =>
  split at h
  · next e9 h9 =>
    injection h with he
    rw [← he]
    exact parseCount_err (fun h => vector3.vec3_err h) h9
  next normals o9 h9 =>
  split at h
  · next e10 h10 =>
    injection h with he
    rw [← he]
    exact parseCount_err (fun h => mlod_face.face_err h) h10
  next faces o10 h10 =>
  split at h
  · next e11 h11 =>
    injection h with he
    rw [← he, readSig_err h11]
    decide
  next tsig o11 h11 =>
  split at h
  · next e12 h12 =>
    injection h with he
    rw [← he]
    exact mlod_lod.parseTagLoop_err h12
  next tags props mass o12 h12 =>
  split at h
  · next e13 h13 =>
    injection h with he
    rw [← he, readU32_err h13]
    decide
  · exact Except.noConfusion h

theorem p3d_header.header_err {buf : Buf} {off : Nat} {e : String}
    (h : p3d_header.parse buf off = .error e) : e ∈ fieldErrorMessages := by
  unfold parse at h
  split at h
  · next e1 h1 =>
    injection h with he
    rw [← he, readSig_err h1]
    decide
  next sig o1 h1 =>
  split at h
  · next e2 h2 =>
    injection h with he
    rw [← he, readU32_err h2]
    decide
  next ver o2 h2 =>
  split at h
  · next e3 h3 =>
    injection h with he
    rw [← he, readU32_err h3]
    decide
  · exact Except.noConfusion h

theorem mlod_p3d.p3d_err {buf : Buf} {off : Nat} {e : String}
    (h : mlod_p3d.parse buf off = .error e) : e ∈ fieldErrorMessages := by
  unfold parse at h
  split at h
  · next e1 h1 =>
    injection h with he
    rw [← he]
    exact p3d_header.header_err h1
  next hd o1 h1 =>
  split at h
  · next e2 h2 =>
    injection h with he
    rw [← he]
    exact parseCount_err (fun h => mlod_lod.lod_err h) h2
  · exact Except.noConfusion h

/-! ## The string round-trip law and failure on NUL-free buffers -/

theorem readChar_of_drop {buf : Buf} {off : Nat} {c : Nat} {rest : List Nat}
    {msg : String} (h : buf.drop off = c :: rest) :
    readChar buf off msg = .ok (c, off + 1) := by
  have hlen : off < buf.length := by
    have hl := congrArg List.length h
    rw [List.length_drop] at hl
    simp only [List.length_cons] at hl
    omega
  have hget : buf[off]? = some c := by
    have h0 : (buf.drop off)[0]? = some c := by
      rw [h]
      simp
    rw [List.getElem?_drop] at h0
    simpa using h0
  unfold readChar readByte
  rw [if_neg (by omega)]
  simp only [List.getD_eq_getElem?_getD, hget]
  rfl

theorem arma_string.parseLoop_encode {s : List Nat} (hs : ∀ c ∈ s, c ≠ 0) :
    ∀ {buf : Buf} {off : Nat} {rest : List Nat} {fuel : Nat},
    buf.drop off = s ++ 0 :: rest → s.length + 1 ≤ fuel →
    arma_string.parseLoop buf off fuel = .ok (s, off + s.length + 1) := by
  induction s with
  | nil =>
    intro buf off rest fuel hbuf hf
    obtain ⟨g, rfl⟩ : ∃ g, fuel = g + 1 := ⟨fuel - 1, by omega⟩
    unfold parseLoop
    rw [readChar_of_drop (by simpa using hbuf)]
    simp
  | cons c t ih =>
    intro buf off rest fuel hbuf hf
    obtain ⟨g, rfl⟩ : ∃ g, fuel = g + 1 := ⟨fuel - 1, by simp at hf; omega⟩
    have hc : c ≠ 0 := hs c (List.mem_cons_self ..)
    have ht : ∀ x ∈ t, x ≠ 0 := fun x hx => hs x (List.mem_cons_of_mem _ hx)
    unfold parseLoop
    rw [readChar_of_drop (by simpa using hbuf)]
    have hdrop2 : buf.drop (off + 1) = t ++ 0 :: rest := by
      have hd : (buf.drop off).drop 1 = buf.drop (off + 1) := List.drop_drop ..
      rw [hbuf] at hd
      simpa using hd.symm
    have hrec := ih ht hdrop2 (show t.length + 1 ≤ g by simp at hf; omega)
    simp only [if_neg hc, hrec]
    have harith : off + 1 + t.length + 1 = off + (c :: t).length + 1 := by
      simp
      omega
    rw [harith]

theorem arma_string.parse_encode {s : List Nat} (hs : ¬0 ∈ s) :
    arma_string.parse (s ++ [0]) 0 = .ok (⟨s⟩, s.length + 1) := by
  unfold parse
  have hl : arma_string.parseLoop (s ++ [0]) 0 ((s ++ [0]).length + 1 - 0)
      = .ok (s, 0 + s.length + 1) :=
    arma_string.parseLoop_encode (fun c hc h0 => hs (h0 ▸ hc))
      (by rw [List.drop_zero]) (by simp)
  simp only [hl]
  simp

theorem arma_string.parse_no_nul_fails {buf : Buf} {off : Nat}
    (h : ∀ b ∈ buf.drop off, b ≠ 0) : (arma_string.parse buf off).isOk = false := by
  cases hres : arma_string.parse buf off with
  | error e => rfl
  | ok r =>
    exfalso
    obtain ⟨s, off'⟩ := r
    obtain ⟨_, _, _, hdropchar⟩ := arma_string.str_spec hres
    refine h 0 ?_ rfl
    rw [hdropchar]
    exact List.mem_append.mpr (Or.inr (List.mem_cons_self ..))

/-! ## Concrete documents used as witnesses and counterexamples -/

set_option maxRecDepth 100000

/-- Scenario A document: header (signature "MLOD", version 257, lodCount 1);
one LOD with one point at the origin, no normals, no faces, tag signature
"SP3X", a single active "#EndOfFile#" tag with empty payload, and
resolution 1.0f (bit pattern 1065353216). -/
def docA : mlod_p3d :=
  ⟨⟨[77, 76, 79, 68], 257, 1⟩,
   [⟨[80, 51, 68, 77], 28, 256, 1, 0, 0, 0,
     [⟨⟨0, 0, 0⟩, 0⟩], [], [],
     [83, 80, 51, 88],
     [⟨1, ⟨endOfFileTagName⟩, 0, []⟩],
     1065353216, [], ⟨[]⟩⟩]⟩

/-- The 81-byte encoding of Scenario A. -/
def bufA : Buf := mlod_p3d.write docA

/-- A minimal document: header only, with lodCount 0. -/
def cexDoc : mlod_p3d := ⟨⟨[77, 76, 79, 68], 257, 0⟩, []⟩

/-- The 12-byte encoding of `cexDoc` followed by one arbitrary trailing
byte: it still decodes (the trailing byte is ignored). -/
def cexBuf : Buf := [77, 76, 79, 68, 1, 1, 0, 0, 0, 0, 0, 0, 9]

/-- An active "#Property#" tag with a 5-byte payload (not 128 bytes). -/
def tagProp : mlod_tag := ⟨1, ⟨propertyTagName⟩, 5, [1, 2, 3, 4, 5]⟩

/-- An active "#EndOfFile#" tag with empty payload. -/
def tagEnd : mlod_tag := ⟨1, ⟨endOfFileTagName⟩, 0, []⟩

/-- A LOD holding the short "#Property#" tag; its `property_tags` field is
exactly what the decoder computes for it (a zero-padded projection). -/
def lodP : mlod_lod :=
  ⟨[80, 51, 68, 77], 28, 256, 0, 0, 0, 0, [], [], [],
   [83, 80, 51, 88], [tagProp, tagEnd], 1065353216,
   [property_tag.fromTag tagProp], ⟨[]⟩⟩

/-- The 74-byte encoding of `lodP`. -/
def bufP : Buf := mlod_lod.write lodP

/-- Scenario B's "#Mass#" tag: 8 payload bytes, the little-endian patterns
of the floats 1.0f and 2.0f. -/
def tagMass : mlod_tag := ⟨1, ⟨massTagName⟩, 8, [0, 0, 128, 63, 0, 0, 0, 64]⟩

/-- Scenario B LOD: numPoints = 3 but the "#Mass#" payload holds only two
floats; its `mass` field is exactly what the decoder computes for it. -/
def lodM : mlod_lod :=
  ⟨[80, 51, 68, 77], 28, 256, 3, 0, 0, 0,
   [⟨⟨0, 0, 0⟩, 0⟩, ⟨⟨0, 0, 0⟩, 0⟩, ⟨⟨0, 0, 0⟩, 0⟩], [], [],
   [83, 80, 51, 88], [tagMass, tagEnd], 1065353216,
   [], mass_tag.fromTag tagMass 3⟩

/-- The 121-byte encoding of `lodM`. -/
def bufM : Buf := mlod_lod.write lodM

/-- A face with four zero descriptors and empty texture/material names. -/
def faceA : mlod_face :=
  ⟨0, [⟨0, 0, 0, 0⟩, ⟨0, 0, 0, 0⟩, ⟨0, 0, 0, 0⟩, ⟨0, 0, 0, 0⟩], 0, ⟨[]⟩, ⟨[]⟩⟩

/-- The 74-byte encoding of `faceA`. -/
def bufFace : Buf := mlod_face.write faceA

/-- A header declaring lodCount 1 followed by no LOD bytes at all: the
decode fails reading the FIRST LOD's signature. -/
def bufE1 : Buf := [77, 76, 79, 68, 1, 1, 0, 0, 1, 0, 0, 0]

/-- A header declaring lodCount 2 followed by exactly one complete LOD: the
decode fails reading the SECOND LOD's signature. -/
def bufE2 : Buf := p3d_header.write ⟨[77, 76, 79, 68], 257, 2⟩ ++ bufP

/-! ## The claims -/

/-- Claim C1, counterexample: `cexBuf` decodes without error to `cexDoc`
(consuming 12 of its 13 bytes), yet encoding `cexDoc` does not reproduce
`cexBuf` byte-for-byte — the trailing byte is lost.  So the claim as stated
(round-trip for ANY buffer that decodes without error) is false. -/
theorem c1_counterexample :
    mlod_p3d.parse cexBuf 0 = .ok (cexDoc, 12) ∧
    mlod_p3d.write cexDoc ≠ cexBuf := by
  constructor
  · decide
  · decide

/-- Claim C1 (amended): for any well-formed buffer that decodes without
error to a Document, encoding the Document reproduces exactly the consumed
byte prefix of the buffer; in particular, when the decode consumed the whole
buffer, the round-trip is byte-for-byte. -/
theorem c1_encode_reproduces_consumed_prefix {buf : Buf} {d : mlod_p3d} {n : Nat}
    (hw : WFBuf buf) (h : mlod_p3d.parse buf 0 = .ok (d, n)) :
    mlod_p3d.write d = buf.take n := by
  obtain ⟨⟨_, _, _, w⟩, _⟩ := mlod_p3d.p3d_spec h
  rw [w hw, extract_zero]

/-- Claim C1 witness: the amended round-trip at Scenario A, whose decode
consumes all 81 bytes, so encode reproduces the entire buffer. -/
theorem c1_encode_reproduces_consumed_prefix_witness :
    mlod_p3d.write docA = bufA.take 81 :=
  c1_encode_reproduces_consumed_prefix (by decide)
    (show mlod_p3d.parse bufA 0 = .ok (docA, 81) by decide)

/-- Claim C2: a successful Document decode yields exactly
`header.lod_count` LOD records; and decoding any truncation of the buffer
strictly below the consumed length fails (out of data) — no partial
Document is ever produced (failure returns only an error value). -/
theorem c2_lod_count_exact_and_truncation_fails {buf : Buf} {d : mlod_p3d} {n : Nat}
    (h : mlod_p3d.parse buf 0 = .ok (d, n)) :
    d.lods.length = d.header.lod_count ∧
    ∀ m, m < n → (mlod_p3d.parse (buf.take m) 0).isOk = false := by
  obtain ⟨_, hlen⟩ := mlod_p3d.p3d_spec h
  refine ⟨hlen, fun m hm => ?_⟩
  exact trunc_fails mlod_p3d.parse
    (fun hh => ⟨(mlod_p3d.p3d_spec hh).1.2.1, (mlod_p3d.p3d_spec hh).1.2.2.1⟩)
    h hm

/-- Claim C2 witness: Scenario A (lodCount 1, 81 bytes) yields one LOD, and
its truncation to 40 bytes — inside the single LOD — fails to decode. -/
theorem c2_lod_count_exact_and_truncation_fails_witness :
    docA.lods.length = docA.header.lod_count ∧
    (mlod_p3d.parse (bufA.take 40) 0).isOk = false :=
  ⟨(c2_lod_count_exact_and_truncation_fails
      (show mlod_p3d.parse bufA 0 = .ok (docA, 81) by decide)).1,
   (c2_lod_count_exact_and_truncation_fails
      (show mlod_p3d.parse bufA 0 = .ok (docA, 81) by decide)).2 40 (by decide)⟩

/-- Claim C3 (code divergence): a "#Property#" tag whose payload is 5 bytes
(not 128) still yields a PropertyTag projection — the constructor runs for
every "#Property#" tag with no payload-length check, zero-filling the 64-byte
key and value buffers past the payload.  The LOD decode succeeds and the raw
tag is retained, but the claimed "no projection for length ≠ 128" is
contradicted. -/
theorem c3_property_projection_produced_without_length_check :
    mlod_lod.parse bufP 0 = .ok (lodP, 74) ∧
    lodP.tags = [tagProp, tagEnd] ∧
    tagProp.data_length = 5 ∧
    lodP.property_tags.length = 1 ∧
    (property_tag.fromTag tagProp).key = [1, 2, 3, 4, 5] ++ List.replicate 59 0 ∧
    (property_tag.fromTag tagProp).value = List.replicate 64 0 := by
  refine ⟨by decide, by decide, by decide, by decide, by decide, by decide⟩

/-- Claim C4 (code divergence, Scenario B): a "#Mass#" tag with numPoints=3
but only 8 payload bytes (floats 1.0f, 2.0f) still yields a MassTag
projection of 3 entries, the missing float zero-filled — the constructor
runs for every "#Mass#" tag with no payload-length check.  The LOD decode
succeeds and the raw tag is retained verbatim, but the claimed "no
projection on mismatch" is contradicted. -/
theorem c4_mass_projection_produced_without_length_check :
    mlod_lod.parse bufM 0 = .ok (lodM, 121) ∧
    lodM.tags = [tagMass, tagEnd] ∧
    tagMass.data_length = 8 ∧
    lodM.num_points * 4 = 12 ∧
    tagMass.data_length ≠ lodM.num_points * 4 ∧
    lodM.mass.mass = [1065353216, 1073741824, 0] ∧
    lodM.mass.mass.length = 3 := by
  refine ⟨by decide, by decide, by decide, by decide, by decide, by decide, by decide⟩

/-- Claim C5: every successfully decoded Face holds exactly 4
VertexDescriptors, whatever its faceType — the vertex vector is resized to 4
before the read loop, independent of any field value. -/
theorem c5_face_always_four_vertices {buf : Buf} {off : Nat} {f : mlod_face}
    {off' : Nat} (h : mlod_face.parse buf off = .ok (f, off')) :
    f.vertices.length = 4 :=
  (mlod_face.face_spec h).2

/-- Claim C5 witness: the concrete 74-byte face buffer decodes to a face
with exactly 4 descriptors. -/
theorem c5_face_always_four_vertices_witness : faceA.vertices.length = 4 :=
  c5_face_always_four_vertices (show mlod_face.parse bufFace 0 = .ok (faceA, 74) by decide)

/-- Claim C6: a successfully decoded LOD's tag sequence is non-empty and
ends with a tag named "#EndOfFile#"; and any truncation of the buffer
strictly below the LOD's consumed end fails to decode (out of data) — in
particular a buffer exhausted before the terminator tag cannot decode. -/
theorem c6_tags_end_with_eof {buf : Buf} {off : Nat} {lod : mlod_lod} {off' : Nat}
    (h : mlod_lod.parse buf off = .ok (lod, off')) :
    lod.tags ≠ [] ∧
    (lod.tags.getLastD defaultTag).tag_name.string = endOfFileTagName ∧
    ∀ m, m < off' → (mlod_lod.parse (buf.take m) off).isOk = false := by
  obtain ⟨_, hne, hlast⟩ := mlod_lod.lod_spec h
  refine ⟨hne, hlast, fun m hm => ?_⟩
  exact trunc_fails mlod_lod.parse
    (fun hh => ⟨(mlod_lod.lod_spec hh).1.2.1, (mlod_lod.lod_spec hh).1.2.2.1⟩)
    h hm

/-- Claim C6 witness: the concrete 74-byte LOD buffer decodes to a LOD whose
last tag is the "#EndOfFile#" tag, and its truncation to 60 bytes — before
the terminator completes — fails to decode. -/
theorem c6_tags_end_with_eof_witness :
    lodP.tags ≠ [] ∧
    (lodP.tags.getLastD defaultTag).tag_name.string = endOfFileTagName ∧
    (mlod_lod.parse (bufP.take 60) 0).isOk = false :=
  ⟨(c6_tags_end_with_eof (show mlod_lod.parse bufP 0 = .ok (lodP, 74) by decide)).1,
   (c6_tags_end_with_eof (show mlod_lod.parse bufP 0 = .ok (lodP, 74) by decide)).2.1,
   (c6_tags_end_with_eof (show mlod_lod.parse bufP 0 = .ok (lodP, 74) by decide)).2.2
     60 (by decide)⟩

/-- Claim C7: the string codec laws.  (1) encode appends the string's bytes
followed by exactly one NUL; (2) decode of an encoded NUL-free string
returns the string, consuming its bytes plus the one NUL; (3) a successful
decode consumed exactly the bytes before the first NUL plus that NUL — the
value holds the bytes before it, NUL-free, terminator excluded; (4) a buffer
with no NUL at or after the start offset fails to decode (out of data). -/
theorem c7_string_codec_roundtrip :
    (∀ s : arma_string, arma_string.write s = s.string ++ [0]) ∧
    (∀ s : List Nat, ¬0 ∈ s →
      arma_string.parse (s ++ [0]) 0 = .ok (⟨s⟩, s.length + 1)) ∧
    (∀ (buf : Buf) (off : Nat) (s : arma_string) (off' : Nat),
      arma_string.parse buf off = .ok (s, off') →
      off' = off + s.string.length + 1 ∧ (∀ c ∈ s.string, c ≠ 0) ∧
      buf.drop off = s.string ++ 0 :: buf.drop off') ∧
    (∀ (buf : Buf) (off : Nat), (∀ b ∈ buf.drop off, b ≠ 0) →
      (arma_string.parse buf off).isOk = false) := by
  refine ⟨fun s => rfl, fun s hs => arma_string.parse_encode hs, ?_, ?_⟩
  · intro buf off s off' h
    obtain ⟨_, he, hnz, hdrop⟩ := arma_string.str_spec h
    exact ⟨he, hnz, hdrop⟩
  · intro buf off h
    exact arma_string.parse_no_nul_fails h

/-- Claim C7 witness: the codec laws instantiated at the bytes "ab" (97,
98): encode appends one NUL; decode of [97, 98, 0] returns them consuming 3
bytes; the consumed-slice law holds for [97, 98, 0, 5]; and the NUL-free
buffer [97, 98] fails to decode. -/
theorem c7_string_codec_roundtrip_witness :
    arma_string.write ⟨[97, 98]⟩ = [97, 98, 0] ∧
    arma_string.parse [97, 98, 0] 0 = .ok (⟨[97, 98]⟩, 3) ∧
    ([97, 98, 0, 5] : Buf).drop 0 = [97, 98] ++ 0 :: ([97, 98, 0, 5] : Buf).drop 3 ∧
    (arma_string.parse [97, 98] 0).isOk = false :=
  ⟨c7_string_codec_roundtrip.1 ⟨[97, 98]⟩,
   c7_string_codec_roundtrip.2.1 [97, 98] (by decide),
   (c7_string_codec_roundtrip.2.2.1 [97, 98, 0, 5] 0 ⟨[97, 98]⟩ 3 (by decide)).2.2,
   c7_string_codec_roundtrip.2.2.2 [97, 98] 0 (by decide)⟩

/-- Claim C8, counterexample: two documents failing in DIFFERENT LOD
elements — `bufE1` (lodCount 1, failing in the first LOD) and `bufE2`
(lodCount 2, whose first LOD at offset 12 decodes completely, failing in the
second) — produce the IDENTICAL error string, which contains no element
index and no dotted path from the root; so the error cannot identify the
failing element, contradicting the claim. -/
theorem c8_counterexample :
    mlod_p3d.parse bufE1 0 = .error "failed to read mlod_lod.signature" ∧
    mlod_p3d.parse bufE2 0 = .error "failed to read mlod_lod.signature" ∧
    mlod_lod.parse bufE2 12 = .ok (lodP, 86) := by
  refine ⟨by decide, by decide, by decide⟩

/-- Claim C8 (amended): every error a Document decode can return is one of a
fixed set of per-field messages of the form "failed to read
<struct>.<field>" — the error names the failing field within its immediate
struct only, with no element indices and no dotted path from the document
root. -/
theorem c8_error_names_field_only {buf : Buf} {off : Nat} {e : String}
    (h : mlod_p3d.parse buf off = .error e) : e ∈ fieldErrorMessages :=
  mlod_p3d.p3d_err h

/-- Claim C8 witness: the empty buffer fails with the header-signature
field message, which is in the fixed message set. -/
theorem c8_error_names_field_only_witness :
    "failed to read p3d_header.signature" ∈ fieldErrorMessages :=
  c8_error_names_field_only
    (show mlod_p3d.parse [] 0 = .error "failed to read p3d_header.signature" by decide)

/-- Claim C9: a cursor read of `n` bytes fails (returning no new cursor
state — the C++ returns `false` before touching `current_offset`) exactly
when fewer than `n` bytes remain; on success it yields precisely the bytes
at `[off, off+n)` — `n` of them — and the offset advanced by exactly `n`. -/
theorem c9_cursor_read_bounds {buf : Buf} {off n : Nat} :
    (buf.length < off + n → readBytes buf off n = none) ∧
    (off + n ≤ buf.length →
      readBytes buf off n = some (extract buf off (off + n), off + n) ∧
      (extract buf off (off + n)).length = n) := by
  constructor
  · exact fun h => readBytes_fail h
  · intro h
    refine ⟨?_, by rw [extract_length (by omega) h]; omega⟩
    unfold readBytes
    rw [if_neg (by omega)]

/-- Claim C9 witness: on the 3-byte buffer [5, 6, 7], reading 2 bytes at
offset 1 succeeds with bytes [6, 7] and offset 3; reading 2 bytes at offset
2 fails. -/
theorem c9_cursor_read_bounds_witness :
    readBytes [5, 6, 7] 1 2 = some ([6, 7], 3) ∧
    readBytes [5, 6, 7] 2 2 = none :=
  ⟨(c9_cursor_read_bounds.2 (by decide)).1,
   c9_cursor_read_bounds.1 (by decide)⟩

/-- Claim C10: Document decode does not require full consumption: replacing
everything at or beyond the consumed length — in particular appending
arbitrary trailing bytes to the consumed prefix — decodes to the same
Document with the same consumed length; the re-encode emits exactly the
consumed prefix, omitting the trailing bytes, so buffers with trailing junk
do not round-trip byte-for-byte. -/
theorem c10_trailing_bytes_ignored {buf : Buf} {d : mlod_p3d} {n : Nat}
    (hw : WFBuf buf) (h : mlod_p3d.parse buf 0 = .ok (d, n)) (junk : Buf) :
    mlod_p3d.parse (buf.take n ++ junk) 0 = .ok (d, n) ∧
    mlod_p3d.write d = buf.take n ∧
    (junk ≠ [] → mlod_p3d.write d ≠ buf.take n ++ junk) := by
  obtain ⟨⟨hle, hlen, hext, hwr⟩, _⟩ := mlod_p3d.p3d_spec h
  refine ⟨hext junk, ?_, ?_⟩
  · rw [hwr hw, extract_zero]
  · intro hj hc
    rw [hwr hw, extract_zero] at hc
    have hl := congrArg List.length hc
    rw [List.length_append] at hl
    cases junk with
    | nil => exact hj rfl
    | cons a t => simp at hl

/-- Claim C10 witness: Scenario A's 81 consumed bytes plus a trailing byte
still decode to the same document; the re-encode omits the trailing byte and
therefore differs from the extended buffer. -/
theorem c10_trailing_bytes_ignored_witness :
    mlod_p3d.parse (bufA.take 81 ++ [7]) 0 = .ok (docA, 81) ∧
    mlod_p3d.write docA ≠ bufA.take 81 ++ [7] :=
  ⟨(c10_trailing_bytes_ignored (by decide)
      (show mlod_p3d.parse bufA 0 = .ok (docA, 81) by decide) [7]).1,
   (c10_trailing_bytes_ignored (by decide)
      (show mlod_p3d.parse bufA 0 = .ok (docA, 81) by decide) [7]).2.2 (by decide)⟩
